import Mathlib

/-!
Shallow embedding of the calculation core of `calcapp`
(`backend/app/services/calculation/string_calculator.py` and
`backend/app/api/calculations/cn1_calculation.py`).

Modelling conventions:
* Python floats are modelled as exact rationals (`ℚ`); the claims under
  study are about algebraic/lookup structure, not binary floating point.
* Python dictionaries read by the code are modelled as structures whose
  fields are `Option`-valued where the code uses `.get` with a default,
  or association lists where the code iterates over items; dictionary
  lookup becomes `alookup` (first match).  Lookup tables whose keys are
  stringified integers (`"25"`, `"30"`) are keyed by `ℤ`; grouping-table
  keys, which are either stringified counts (`"3"`) or thresholds
  (`"10+"`), are keyed by the tagged type `GKey`.
* A Python function that may raise is modelled as returning
  `Except String _`; a `try`/`except` block becomes a `match` on that
  value.
* Module-level state (`SECTIONS_CONFIG`, `MATERIALS`, the loaded
  normativa configuration) is passed explicitly as parameters.
-/

namespace Calcapp

/-- Association-list lookup, first match wins (Python dict access). -/
def alookup {α β : Type} [DecidableEq α] (k : α) : List (α × β) → Option β
  | [] => none
  | (a, b) :: rest => if a = k then some b else alookup k rest

instance {ε α : Type} [DecidableEq ε] [DecidableEq α] : DecidableEq (Except ε α) :=
  fun x y =>
    match x, y with
    | Except.ok a, Except.ok b =>
      if h : a = b then isTrue (by rw [h]) else isFalse (by simp [h])
    | Except.error a, Except.error b =>
      if h : a = b then isTrue (by rw [h]) else isFalse (by simp [h])
    | Except.ok _, Except.error _ => isFalse (by simp)
    | Except.error _, Except.ok _ => isFalse (by simp)

/-- Key of a grouping-derating table: either a stringified circuit count
(`"3"`) or an open threshold (`"10+"`). -/
inductive GKey where
  | num : ℤ → GKey
  | plus : ℤ → GKey
deriving DecidableEq

/-- A grouping `values` table: key to derating factor. -/
abbrev GroupTable := List (GKey × ℚ)

/-- One entry of `grouping_factors[method]`: an optional direct `values`
table plus named sub-tables (layouts), each optionally carrying `values`.
The list order models dict insertion order. -/
structure MethodData where
  values? : Option GroupTable
  sublayouts : List (String × Option GroupTable)
deriving DecidableEq

/-- The slice of a normativa configuration read by the correction code:
`temperature_correction` (its `values` table and `ambient_design`),
`grouping_factors`, and `installation` defaults. -/
structure NormativaConfig where
  temperature_values : List (ℤ × ℚ)
  ambient_design : Option ℤ
  grouping_factors : List (String × MethodData)
  installation_method : Option String
  installation_layout : Option String
deriving DecidableEq

/-- The `voltage_drop` sub-dictionary of a calculation config. -/
structure VoltageDropCfg where
  max_percentage : Option ℚ
  reference_voltage : Option ℚ
deriving DecidableEq

/-- The calculation-config dictionary keys read by the sizing pipeline. -/
structure CalcConfig where
  isc_ref : Option ℚ
  isc_correction : Option ℚ
  number_of_parallel_strings : Option ℤ
  voltage_drop : Option VoltageDropCfg
  current_ambient : Option ℤ
  cf_current_ambient : Option ℤ
  method : Option String
  layout : Option String
  inst_method : Option String
  inst_layout : Option String
  cable_material : Option String
  cn1_parallel_mapping : List (String × ℤ)
deriving DecidableEq

/-- Embedding of `validate_config_parameters` (string_calculator.py:218-251):
re-validates the voltage-drop budget, clamps the parallel-string count into
`[1, 100]`, and raises when `isc_ref ≤ 0`. -/
def validate_config_parameters (cfg0 : CalcConfig) : Except String CalcConfig :=
  let vd := cfg0.voltage_drop.getD ⟨none, none⟩
  let max_percentage := vd.max_percentage.getD (3/2)
  let vd' : VoltageDropCfg := { vd with max_percentage := some (3/2) }
  let cfg1 :=
    if ¬ (1/10 ≤ max_percentage ∧ max_percentage ≤ 10) then
      { cfg0 with voltage_drop := some vd' }
    else cfg0
  let v_ref := vd.reference_voltage.getD 1500
  let vd1 : VoltageDropCfg :=
    { (cfg1.voltage_drop.getD ⟨none, none⟩) with reference_voltage := some 1500 }
  let cfg2 :=
    if v_ref ≤ 0 then { cfg1 with voltage_drop := some vd1 }
    else cfg1
  let num_strings := cfg2.number_of_parallel_strings.getD 1
  let cfg3 :=
    if num_strings < 1 then { cfg2 with number_of_parallel_strings := some 1 }
    else if 100 < num_strings then { cfg2 with number_of_parallel_strings := some 100 }
    else cfg2
  let isc_ref := cfg3.isc_ref.getD 0
  if isc_ref ≤ 0 then
    Except.error "La corriente ISC debe ser mayor a 0A"
  else Except.ok cfg3

/-- Scan of adjacent sorted temperature entries looking for a bracketing
interval; embeds the interpolation loop in `apply_correction_factors`
(string_calculator.py:807-814). -/
def interpScan : List (ℤ × ℚ) → ℤ → Option ℚ
  | (t1, f1) :: (t2, f2) :: rest, amb =>
    if t1 ≤ amb ∧ amb ≤ t2 then
      some (f1 + (f2 - f1) * (((amb : ℚ) - (t1 : ℚ)) / ((t2 : ℚ) - (t1 : ℚ))))
    else interpScan ((t2, f2) :: rest) amb
  | _, _ => none

/-- Python `min(pairs, key=lambda x: abs(x[0] - amb))`: first pair of the
list at minimal absolute key distance. -/
def nearestPair (amb : ℤ) : List (ℤ × ℚ) → Option (ℤ × ℚ)
  | [] => none
  | x :: xs =>
    some (xs.foldl (fun best p => if |p.1 - amb| < |best.1 - amb| then p else best) x)

/-- Temperature-factor lookup of `apply_correction_factors`
(string_calculator.py:787-821): exact key, else linear interpolation on the
ascending-sorted entries, else nearest key; factor `1.0` when the table is
empty. -/
def temp_factor_lookup (temp_values : List (ℤ × ℚ)) (amb : ℤ) : ℚ :=
  if temp_values.isEmpty then 1
  else
    match alookup amb temp_values with
    | some f => f
    | none =>
      let available := temp_values.insertionSort (fun a b => a.1 ≤ b.1)
      match interpScan available amb with
      | some f => f
      | none =>
        match nearestPair amb available with
        | some p => p.2
        | none => 1

/-- The applicable `"N+"` thresholds of a grouping table
(string_calculator.py:306-314). -/
def plusCandidates (count : ℤ) (table : GroupTable) : List (ℤ × ℚ) :=
  table.filterMap (fun p =>
    match p.1 with
    | GKey.plus n => if n ≤ count then some (n, p.2) else none
    | GKey.num _ => none)

/-- The numeric (non-threshold) keys of a grouping table
(string_calculator.py:323-329). -/
def numCandidates (table : GroupTable) : List (ℤ × ℚ) :=
  table.filterMap (fun p =>
    match p.1 with
    | GKey.num n => some (n, p.2)
    | GKey.plus _ => none)

/-- Within-table part of `get_grouping_factor_safe`
(string_calculator.py:285-340): empty table gives `1.0`; else exact count
key; else the highest applicable `"N+"` threshold; else the numerically
nearest count key; else `1.0`. -/
def factor_from_group_table (table : GroupTable) (count : ℤ) : ℚ :=
  if table.isEmpty then 1
  else
    match alookup (GKey.num count) table with
    | some f => f
    | none =>
      match (plusCandidates count table).insertionSort (fun a b => b.1 ≤ a.1) with
      | (_, f) :: _ => f
      | [] =>
        match nearestPair count (numCandidates table) with
        | some p => p.2
        | none => 1

/-- Table-resolution part of `get_grouping_factor_safe`
(string_calculator.py:266-283): the layout sub-table's `values` when
present, else the method's direct `values`, else the first sub-table that
carries `values`. -/
def resolve_group_table (md : MethodData) (layout : String) : Option GroupTable :=
  match (if layout ≠ "" then alookup layout md.sublayouts else none) with
  | some (some tbl) => some tbl
  | _ =>
    match md.values? with
    | some tbl => some tbl
    | none => (md.sublayouts.find? (fun p => p.2.isSome)).bind Prod.snd

/-- Embedding of `get_grouping_factor_safe` (string_calculator.py:253-347). -/
def get_grouping_factor_safe (norm : NormativaConfig) (count : ℤ)
    (method layout : String) : ℚ :=
  match alookup method norm.grouping_factors with
  | none => 1
  | some md =>
    match resolve_group_table md layout with
    | none => 1
    | some tbl => factor_from_group_table tbl count

/-- Embedding of `apply_correction_factors` (string_calculator.py:756-869).
The `i_nominal ≤ 0` branch models the `ValueError` raised at line 761 and
caught by the function's own `except`, which returns
`i_nominal / 1.25`; the invalid-custom-normativa branch models the early
return `i_nominal * 1.25` at line 777. -/
def apply_correction_factors (i_nominal : ℚ) (cfg : CalcConfig)
    (norm : NormativaConfig) (normativa_used : String)
    (custom_structure_valid : Bool) : ℚ :=
  if i_nominal ≤ 0 then i_nominal / (5/4)
  else if normativa_used = "PERSONALIZADA" ∧ custom_structure_valid = false then
    i_nominal * (5/4)
  else
    let current_ambient := cfg.current_ambient.getD
      (cfg.cf_current_ambient.getD (norm.ambient_design.getD 30))
    let temp_factor := temp_factor_lookup norm.temperature_values current_ambient
    let method := cfg.method.getD
      (cfg.inst_method.getD (norm.installation_method.getD "conduit"))
    let layout := cfg.layout.getD
      (cfg.inst_layout.getD (norm.installation_layout.getD "single_layer"))
    let number_of_circuits := cfg.number_of_parallel_strings.getD 1
    let group_factor := get_grouping_factor_safe norm number_of_circuits method layout
    let temp_factor' := if temp_factor ≤ 0 ∨ 2 < temp_factor then 4/5 else temp_factor
    let group_factor' := if group_factor ≤ 0 ∨ 6/5 < group_factor then 4/5 else group_factor
    i_nominal / (temp_factor' * group_factor')

/-- One entry of `configs/material_properties.yaml`. -/
structure MaterialProps where
  resistivity_20C : ℚ
  temp_coefficient : ℚ
deriving DecidableEq

/-- Embedding of `get_material_resistivity` (string_calculator.py:723-754):
unknown materials raise; otherwise `rho20 * (1 + alpha * (T - 20))`. -/
def get_material_resistivity (materials : List (String × MaterialProps))
    (material_name : String) (temp_operating : ℚ) : Except String ℚ :=
  match alookup material_name materials with
  | none => Except.error ("Material no encontrado: " ++ material_name)
  | some props =>
    Except.ok (props.resistivity_20C * (1 + props.temp_coefficient * (temp_operating - 20)))

/-- The module-level `SECTIONS_CONFIG`: commercial-section catalogs per
circuit type plus the active normativa name. -/
structure SectionsConfig where
  tables : List (String × List ℚ)
  normativa_used : String
deriving DecidableEq

/-- Embedding of `get_available_sections` (string_calculator.py:705-711):
raises when the circuit type has no catalog entry. -/
def get_available_sections (sc : SectionsConfig) (circuit_type : String) :
    Except String (List ℚ) :=
  match alookup circuit_type sc.tables with
  | none => Except.error ("Tipo de circuito no valido: " ++ circuit_type)
  | some l => Except.ok l

/-- Catalog-scan part of `get_commercial_section`
(string_calculator.py:871-893): sort the catalog ascending, return the
first entry `≥` the theoretical section, else the largest available entry,
else `none` for an empty catalog. -/
def get_commercial_section (catalog : List ℚ) (theoretical : ℚ) : Option ℚ :=
  let sorted := catalog.insertionSort (· ≤ ·)
  match sorted.find? (fun s => decide (theoretical ≤ s)) with
  | some s => some s
  | none => sorted.getLast?

/-- Python banker's rounding of a rational to an integer (`round` ties go
to the even neighbour). -/
def roundHalfEven (x : ℚ) : ℤ :=
  let f := ⌊x⌋
  let frac := x - (f : ℚ)
  if frac < 1/2 then f
  else if 1/2 < frac then f + 1
  else if Even f then f else f + 1

/-- Python `round(x, ndigits)` on exact rationals. -/
def pyRound (ndigits : ℕ) (x : ℚ) : ℚ :=
  (roundHalfEven (x * (10 : ℚ) ^ ndigits) : ℚ) / (10 : ℚ) ^ ndigits

/-- An input row of the DC-string table (fields read by the code). -/
structure Row where
  string_id : String
  length_pos_m : ℚ
  length_neg_m : ℚ
deriving DecidableEq

/-- A per-string result dictionary.  Keys absent from a given result kind
are `none`; `calculation_status` carries `"SUCCESS"`/`"ERROR"` and
`status` carries `"FATAL_ERROR"` (the two distinct keys used by the code). -/
structure StringResult where
  string_id : String
  normativa : String
  length_total_m : Option ℚ := none
  i_nominal : Option ℚ := none
  i_adjusted : Option ℚ := none
  resistivity_ohm_mm2_per_m : Option ℚ := none
  s_teorica_mm2 : Option ℚ := none
  s_comercial_mm2 : Option ℚ := none
  v_drop_real_volts : Option ℚ := none
  v_drop_real_pct : Option ℚ := none
  v_drop_max_volts : Option ℚ := none
  joule_losses_w : Option ℚ := none
  resistance_total_ohm : Option ℚ := none
  reference_voltage : Option ℚ := none
  max_vdrop_pct : Option ℚ := none
  voltage_status : Option String := none
  circuit_type : Option String := none
  cable_material : Option String := none
  calculation_status : Option String := none
  error : Option String := none
  status : Option String := none
deriving DecidableEq

/-- Voltage-drop status classification (string_calculator.py:974-979). -/
def classify_voltage_status (v_drop_pct max_percentage : ℚ) : String :=
  if v_drop_pct ≤ max_percentage then "OK"
  else if v_drop_pct ≤ max_percentage * (11/10) then "WARNING"
  else "CRITICAL"

/-- Success-record assembly shared by the string and CN1 calculators
(string_calculator.py:966-1008): realized drop, resistance and losses for
the selected commercial section, or the `NO_SECTION` branch. -/
def build_success_result (string_id : String) (sc : SectionsConfig)
    (circuit_type material : String) (length_total i_nominal i_adj resistivity
    s_teorica max_voltage_drop_v max_percentage v_ref : ℚ)
    (s_comercial : Option ℚ) : StringResult :=
  let base : StringResult :=
    { string_id := string_id
      normativa := sc.normativa_used
      length_total_m := some (pyRound 2 length_total)
      i_nominal := some (pyRound 2 i_nominal)
      i_adjusted := some (pyRound 2 i_adj)
      resistivity_ohm_mm2_per_m := some (pyRound 6 resistivity)
      s_teorica_mm2 := some (pyRound 3 s_teorica)
      s_comercial_mm2 := s_comercial
      v_drop_max_volts := some (pyRound 3 max_voltage_drop_v)
      reference_voltage := some v_ref
      max_vdrop_pct := some max_percentage
      circuit_type := some circuit_type
      cable_material := some material
      calculation_status := some "SUCCESS" }
  match s_comercial with
  | some s =>
    if 0 < s then
      let v_drop_real := (2 * resistivity * length_total * i_adj) / s
      let v_drop_pct := (v_drop_real / v_ref) * 100
      let resistance_total := (2 * resistivity * length_total) / s
      let joule_losses := i_adj ^ 2 * resistance_total
      { base with
        v_drop_real_volts := some (pyRound 3 v_drop_real)
        v_drop_real_pct := some (pyRound 3 v_drop_pct)
        joule_losses_w := some (pyRound 2 joule_losses)
        resistance_total_ohm := some (pyRound 6 resistance_total)
        voltage_status := some (classify_voltage_status v_drop_pct max_percentage) }
    else { base with voltage_status := some "NO_SECTION" }
  | none => { base with voltage_status := some "NO_SECTION" }

/-- The raising body of `calculate_string_section`
(string_calculator.py:896-1011); each raise site becomes `Except.error`. -/
def string_section_core (row : Row) (cfg0 : CalcConfig) (norm : NormativaConfig)
    (materials : List (String × MaterialProps)) (sc : SectionsConfig)
    (custom_valid : Bool) (circuit_type : String) : Except String StringResult :=
  match validate_config_parameters cfg0 with
  | Except.error e => Except.error e
  | Except.ok cfg =>
    let length_pos := row.length_pos_m
    let length_neg := row.length_neg_m
    if length_pos ≤ 0 ∨ length_neg ≤ 0 then Except.error "Longitudes invalidas"
    else if 10000 < length_pos ∨ 10000 < length_neg then
      Except.error "Longitudes excesivas (maximo 10km)"
    else
      let isc_safety_factor := cfg.isc_correction.getD (5/4)
      match cfg.isc_ref with
      | none => Except.error "KeyError: isc_ref"
      | some isc_ref =>
        let i_nominal := isc_ref * isc_safety_factor
        let i_adj := apply_correction_factors i_nominal cfg norm sc.normativa_used custom_valid
        let length_total := length_pos + length_neg
        let material := cfg.cable_material.getD "copper"
        let temp_operating := cfg.cf_current_ambient.getD 30
        match get_material_resistivity materials material (temp_operating : ℚ) with
        | Except.error e => Except.error e
        | Except.ok resistivity =>
          match cfg.voltage_drop with
          | none => Except.error "KeyError: voltage_drop"
          | some vd =>
            match vd.max_percentage, vd.reference_voltage with
            | some max_percentage, some v_ref =>
              let max_voltage_drop_v := v_ref * (max_percentage / 100)
              if max_voltage_drop_v ≤ 0 then
                Except.error "Caida de tension maxima invalida"
              else
                let s_teorica := (2 * resistivity * length_total * i_adj) / max_voltage_drop_v
                if s_teorica ≤ 0 then Except.error "Seccion teorica invalida"
                else
                  match get_available_sections sc circuit_type with
                  | Except.error e => Except.error e
                  | Except.ok catalog =>
                    Except.ok (build_success_result row.string_id sc circuit_type
                      material length_total i_nominal i_adj resistivity s_teorica
                      max_voltage_drop_v max_percentage v_ref
                      (get_commercial_section catalog s_teorica))
            | _, _ => Except.error "KeyError: voltage_drop fields"

/-- Embedding of `calculate_string_section` (string_calculator.py:896-1020):
the surrounding `try`/`except` converts any raise into an `"ERROR"` record. -/
def calculate_string_section (row : Row) (cfg0 : CalcConfig) (norm : NormativaConfig)
    (materials : List (String × MaterialProps)) (sc : SectionsConfig)
    (custom_valid : Bool) (circuit_type : String) : StringResult :=
  match string_section_core row cfg0 norm materials sc custom_valid circuit_type with
  | Except.ok r => r
  | Except.error e =>
    { string_id := row.string_id
      normativa := sc.normativa_used
      error := some e
      calculation_status := some "ERROR" }

/-- The fatal-error record built by `calculate_all_strings`
(string_calculator.py:1044-1049); note it uses the key `status`, not
`calculation_status`. -/
def fatal_result (row : Row) (e : String) (sc : SectionsConfig) : StringResult :=
  { string_id := row.string_id
    normativa := sc.normativa_used
    error := some ("Error fatal: " ++ e)
    status := some "FATAL_ERROR" }

/-- The row loop of `calculate_all_strings` (string_calculator.py:1028-1056),
parameterised over the per-row call (which, in Python, may raise: the
`Except.error` case is the `except` branch producing a `FATAL_ERROR` row).
Returns the result list together with `(success_count, error_count)`. -/
def run_batch (f : Row → Except String StringResult) (sc : SectionsConfig) :
    List Row → List StringResult × ℕ × ℕ
  | [] => ([], 0, 0)
  | row :: rest =>
    let step : StringResult × Bool :=
      match f row with
      | Except.ok r => (r, r.error.isNone)
      | Except.error e => (fatal_result row e sc, false)
    let acc := run_batch f sc rest
    (step.1 :: acc.1,
      (if step.2 then acc.2.1 + 1 else acc.2.1),
      (if step.2 then acc.2.2 else acc.2.2 + 1))

/-- Embedding of `calculate_all_strings` (string_calculator.py:1022-1056);
the per-row call never raises in the model because
`calculate_string_section` catches every exception itself. -/
def calculate_all_strings (rows : List Row) (cfg0 : CalcConfig)
    (norm : NormativaConfig) (materials : List (String × MaterialProps))
    (sc : SectionsConfig) (custom_valid : Bool) (circuit_type : String) :
    List StringResult × ℕ × ℕ :=
  run_batch
    (fun row => Except.ok
      (calculate_string_section row cfg0 norm materials sc custom_valid circuit_type))
    sc rows

/-- Python `str.upper()` on a character list (ASCII case mapping). -/
def upperStr (s : List Char) : List Char := s.map Char.toUpper

/-- Python `str.lower()` on a character list (ASCII case mapping). -/
def lowerStr (s : List Char) : List Char := s.map Char.toLower

/-- Python whitespace as removed by `str.strip()`. -/
def isPySpace (c : Char) : Bool :=
  c = ' ' || c = '\t' || c = '\n' || c = '\x0d' || c = '\x0b' || c = '\x0c'

/-- Python `str.strip()`: drop whitespace from both ends. -/
def stripStr (s : List Char) : List Char :=
  ((s.dropWhile isPySpace).reverse.dropWhile isPySpace).reverse

/-- Python `s.replace(pat, "")`: remove every (left-to-right,
non-overlapping) occurrence of `pat`. -/
def replaceDrop (pat : List Char) : List Char → List Char
  | [] => []
  | c :: rest =>
    if pat ≠ [] ∧ pat.isPrefixOf (c :: rest) then
      replaceDrop pat ((c :: rest).drop pat.length)
    else c :: replaceDrop pat rest
termination_by l => l.length
decreasing_by
  · rename_i h
    simp only [List.length_drop, List.length_cons]
    have hp : 0 < pat.length := List.length_pos.mpr h.1
    have hle : pat.length ≤ rest.length + 1 := by
      have := (List.isPrefixOf_iff_prefix.mp h.2).length_le
      simpa using this
    omega
  · simp

/-- Python `s.zfill(width)`: left-pad with zeros to `width`, keeping a
leading sign character in front. -/
def zfill (width : ℕ) (s : List Char) : List Char :=
  if width ≤ s.length then s
  else
    match s with
    | [] => List.replicate width '0'
    | c :: rest =>
      if c = '+' ∨ c = '-' then
        c :: (List.replicate (width - s.length) '0' ++ rest)
      else List.replicate (width - s.length) '0' ++ s

/-- Python `s.lstrip("0") or "0"`: drop leading zeros, defaulting to `"0"`
when everything was stripped. -/
def lstripZerosOr0 (s : List Char) : List Char :=
  let r := s.dropWhile (fun c => c = '0')
  if r.isEmpty then ['0'] else r

/-- Embedding of the inner `build_mapping_circuit_id`
(string_calculator.py:1384-1413): the string-table side of the CN1 join
key.  The combiner id is upper-cased and stripped before the prefix test;
a non-matching id is zero-padded as-is. -/
def build_mapping_circuit_id (cn1_id inverter_id : List Char) : List Char :=
  let cn1_raw := stripStr (upperStr cn1_id)
  let inv_raw := stripStr (upperStr inverter_id)
  let cn1_num :=
    if ("CN1-".data).isPrefixOf cn1_raw then
      zfill 2 (replaceDrop "CN1-".data cn1_raw)
    else zfill 2 cn1_id
  let inv_num :=
    if ("INV-".data).isPrefixOf inv_raw then
      lstripZerosOr0 (replaceDrop "INV-".data inv_raw)
    else lstripZerosOr0 inverter_id
  "cn1-".data ++ cn1_num ++ "-inv".data ++ inv_num

/-- Embedding of `normalize_circuit_id_from_cn1_table`
(string_calculator.py:1449-1473 and, identically,
cn1_calculation.py:16-47): the CN1-table side of the join key.  The
combiner id is lower-cased and stripped before the prefix test. -/
def normalize_circuit_id_from_cn1_table (cn1_circuit_id inverter_id : List Char) :
    List Char :=
  let cn1_str := stripStr (lowerStr cn1_circuit_id)
  let cn1_num :=
    if ("cn1-".data).isPrefixOf cn1_str then
      zfill 2 (replaceDrop "cn1-".data cn1_str)
    else zfill 2 cn1_circuit_id
  let inv_str := stripStr (upperStr inverter_id)
  let inv_num :=
    if ("INV-".data).isPrefixOf inv_str then
      lstripZerosOr0 (replaceDrop "INV-".data inv_str)
    else lstripZerosOr0 inverter_id
  "cn1-".data ++ cn1_num ++ "-inv".data ++ inv_num

/-- String-typed wrapper of `normalize_circuit_id_from_cn1_table` as used
by `calculate_cn1_section`. -/
def normalizeCn1Key (cn1_circuit_id inverter_id : String) : String :=
  String.mk (normalize_circuit_id_from_cn1_table cn1_circuit_id.data inverter_id.data)

/-- An input row of the CN1 table (fields read by the code). -/
structure Cn1Row where
  circuit_id : String
  inverter_id : String
  length_pos_m : ℚ
  length_neg_m : ℚ
deriving DecidableEq

/-- A per-CN1-circuit result dictionary (string_calculator.py:1255-1293). -/
structure Cn1Result where
  circuit_id : String
  normativa : String
  normalized_circuit_id : Option String := none
  parallel_strings : Option ℤ := none
  isc_base : Option ℚ := none
  isc_combined : Option ℚ := none
  length_total_m : Option ℚ := none
  i_nominal : Option ℚ := none
  i_adjusted : Option ℚ := none
  resistivity_ohm_mm2_per_m : Option ℚ := none
  s_teorica_mm2 : Option ℚ := none
  s_comercial_mm2 : Option ℚ := none
  v_drop_real_volts : Option ℚ := none
  v_drop_real_pct : Option ℚ := none
  v_drop_max_volts : Option ℚ := none
  joule_losses_w : Option ℚ := none
  resistance_total_ohm : Option ℚ := none
  reference_voltage : Option ℚ := none
  max_vdrop_pct : Option ℚ := none
  voltage_status : Option String := none
  circuit_type : Option String := none
  cable_material : Option String := none
  calculation_status : Option String := none
  calculation_type : String := "CN1_COMBINED"
  error : Option String := none
deriving DecidableEq

/-- Success-record assembly of `calculate_cn1_section`
(string_calculator.py:1233-1280). -/
def build_cn1_success_result (circuit_id normalized_circuit_id : String)
    (parallel_strings : ℤ) (sc : SectionsConfig) (circuit_type material : String)
    (isc_base isc_combined length_total i_nominal i_adj resistivity s_teorica
    max_voltage_drop_v max_percentage v_ref : ℚ) (s_comercial : Option ℚ) :
    Cn1Result :=
  let base : Cn1Result :=
    { circuit_id := circuit_id
      normativa := sc.normativa_used
      normalized_circuit_id := some normalized_circuit_id
      parallel_strings := some parallel_strings
      isc_base := some (pyRound 2 isc_base)
      isc_combined := some (pyRound 2 isc_combined)
      length_total_m := some (pyRound 2 length_total)
      i_nominal := some (pyRound 2 i_nominal)
      i_adjusted := some (pyRound 2 i_adj)
      resistivity_ohm_mm2_per_m := some (pyRound 6 resistivity)
      s_teorica_mm2 := some (pyRound 3 s_teorica)
      s_comercial_mm2 := s_comercial
      v_drop_max_volts := some (pyRound 3 max_voltage_drop_v)
      reference_voltage := some v_ref
      max_vdrop_pct := some max_percentage
      circuit_type := some circuit_type
      cable_material := some material
      calculation_status := some "SUCCESS" }
  match s_comercial with
  | some s =>
    if 0 < s then
      let v_drop_real := (2 * resistivity * length_total * i_adj) / s
      let v_drop_pct := (v_drop_real / v_ref) * 100
      let resistance_total := (2 * resistivity * length_total) / s
      let joule_losses := i_adj ^ 2 * resistance_total
      { base with
        v_drop_real_volts := some (pyRound 3 v_drop_real)
        v_drop_real_pct := some (pyRound 3 v_drop_pct)
        joule_losses_w := some (pyRound 2 joule_losses)
        resistance_total_ohm := some (pyRound 6 resistance_total)
        voltage_status := some (classify_voltage_status v_drop_pct max_percentage) }
    else { base with voltage_status := some "NO_SECTION" }
  | none => { base with voltage_status := some "NO_SECTION" }

/-- The raising body of `calculate_cn1_section`
(string_calculator.py:1155-1283): like the string version but with the
combined current `isc_base * parallel_strings` and without the 10 km
length bound. -/
def cn1_section_core (row : Cn1Row) (cfg0 : CalcConfig) (norm : NormativaConfig)
    (materials : List (String × MaterialProps)) (sc : SectionsConfig)
    (custom_valid : Bool) (circuit_type : String) : Except String Cn1Result :=
  match validate_config_parameters cfg0 with
  | Except.error e => Except.error e
  | Except.ok cfg =>
    let length_pos := row.length_pos_m
    let length_neg := row.length_neg_m
    if length_pos ≤ 0 ∨ length_neg ≤ 0 then Except.error "Longitudes invalidas"
    else
      let normalized_circuit_id := normalizeCn1Key row.circuit_id row.inverter_id
      let parallel_strings :=
        (alookup normalized_circuit_id cfg.cn1_parallel_mapping).getD 1
      match cfg.isc_ref with
      | none => Except.error "KeyError: isc_ref"
      | some isc_base =>
        let isc_combined := isc_base * (parallel_strings : ℚ)
        let isc_safety_factor := cfg.isc_correction.getD (5/4)
        let i_nominal := isc_combined * isc_safety_factor
        let i_adj := apply_correction_factors i_nominal cfg norm sc.normativa_used custom_valid
        let length_total := length_pos + length_neg
        let material := cfg.cable_material.getD "copper"
        let temp_operating := cfg.cf_current_ambient.getD 30
        match get_material_resistivity materials material (temp_operating : ℚ) with
        | Except.error e => Except.error e
        | Except.ok resistivity =>
          match cfg.voltage_drop with
          | none => Except.error "KeyError: voltage_drop"
          | some vd =>
            match vd.max_percentage, vd.reference_voltage with
            | some max_percentage, some v_ref =>
              let max_voltage_drop_v := v_ref * (max_percentage / 100)
              if max_voltage_drop_v ≤ 0 then
                Except.error "Caida de tension maxima invalida"
              else
                let s_teorica := (2 * resistivity * length_total * i_adj) / max_voltage_drop_v
                if s_teorica ≤ 0 then Except.error "Seccion teorica invalida"
                else
                  match get_available_sections sc circuit_type with
                  | Except.error e => Except.error e
                  | Except.ok catalog =>
                    Except.ok (build_cn1_success_result row.circuit_id
                      normalized_circuit_id parallel_strings sc circuit_type
                      material isc_base isc_combined length_total i_nominal i_adj
                      resistivity s_teorica max_voltage_drop_v max_percentage v_ref
                      (get_commercial_section catalog s_teorica))
            | _, _ => Except.error "KeyError: voltage_drop fields"

/-- Embedding of `calculate_cn1_section` (string_calculator.py:1155-1293):
the surrounding `try`/`except` converts any raise into an `"ERROR"` record. -/
def calculate_cn1_section (row : Cn1Row) (cfg0 : CalcConfig) (norm : NormativaConfig)
    (materials : List (String × MaterialProps)) (sc : SectionsConfig)
    (custom_valid : Bool) (circuit_type : String) : Cn1Result :=
  match cn1_section_core row cfg0 norm materials sc custom_valid circuit_type with
  | Except.ok r => r
  | Except.error e =>
    { circuit_id := row.circuit_id
      normativa := sc.normativa_used
      error := some e
      calculation_status := some "ERROR" }

/-- Proof-scaffolding view of the `voltage_drop` value produced by
`validate_config_parameters` (same update logic, factored out). -/
def validated_vdrop (cfg : CalcConfig) : Option VoltageDropCfg :=
  let vd := cfg.voltage_drop.getD ⟨none, none⟩
  let mp := vd.max_percentage.getD (3/2)
  let after1 :=
    if ¬ (1/10 ≤ mp ∧ mp ≤ 10) then some { vd with max_percentage := some (3/2) }
    else cfg.voltage_drop
  if vd.reference_voltage.getD 1500 ≤ 0 then
    some { (after1.getD ⟨none, none⟩) with reference_voltage := some 1500 }
  else after1

/-- Proof-scaffolding view of the parallel-string count produced by
`validate_config_parameters`. -/
def validated_nps (cfg : CalcConfig) : Option ℤ :=
  if cfg.number_of_parallel_strings.getD 1 < 1 then some 1
  else if 100 < cfg.number_of_parallel_strings.getD 1 then some 100
  else cfg.number_of_parallel_strings

/-- Demo voltage-drop configuration used by the witness theorems. -/
def demoVd : VoltageDropCfg :=
  { max_percentage := some (3/2), reference_voltage := some 1500 }

/-- Demo calculation configuration used by the witness theorems. -/
def demoCfg : CalcConfig :=
  { isc_ref := some 10
    isc_correction := some (5/4)
    number_of_parallel_strings := some 2
    voltage_drop := some demoVd
    current_ambient := none
    cf_current_ambient := none
    method := none
    layout := none
    inst_method := none
    inst_layout := none
    cable_material := none
    cn1_parallel_mapping := [] }

/-- Demo normativa configuration used by the witness theorems. -/
def demoNorm : NormativaConfig :=
  { temperature_values := []
    ambient_design := none
    grouping_factors := []
    installation_method := none
    installation_layout := none }

/-- Demo material table (copper at its usual constants). -/
def demoMaterials : List (String × MaterialProps) :=
  [("copper", { resistivity_20C := 431/25000, temp_coefficient := 393/100000 })]

/-- Demo commercial-section catalogs. -/
def demoSections : SectionsConfig :=
  { tables := [("dc_strings", [3/2, 5/2, 4, 6, 10, 16, 25]),
               ("cn1_inverter", [16, 25, 35, 50])]
    normativa_used := "IEC" }

/-- Counterexample configuration: ambient temperature 25 with a
temperature-derating entry of 1.5 at 25. -/
def cexCfg : CalcConfig :=
  { isc_ref := none
    isc_correction := none
    number_of_parallel_strings := none
    voltage_drop := none
    current_ambient := some 25
    cf_current_ambient := none
    method := none
    layout := none
    inst_method := none
    inst_layout := none
    cable_material := none
    cn1_parallel_mapping := [] }

/-- Counterexample normativa: temperature factor 1.5 at 25, no grouping
tables. -/
def cexNorm : NormativaConfig :=
  { temperature_values := [(25, 3/2)]
    ambient_design := none
    grouping_factors := []
    installation_method := none
    installation_layout := none }


/-- Demo grouping table for the layout sub-key (factors per circuit count). -/
def layoutTable : GroupTable :=
  [(GKey.num 1, 1), (GKey.num 2, 85/100), (GKey.plus 10, 1/2)]

/-- Demo grouping table stored directly under the method. -/
def directTable : GroupTable :=
  [(GKey.num 1, 1), (GKey.num 2, 9/10), (GKey.plus 6, 7/10)]

/-- Demo normativa with one grouping method carrying both a direct table
and a layout sub-table. -/
def normC3 : NormativaConfig :=
  { temperature_values := []
    ambient_design := none
    grouping_factors :=
      [("buried", { values? := some directTable
                    sublayouts := [("single_layer", some layoutTable),
                                   ("multilayer", none)] })]
    installation_method := none
    installation_layout := none }

/-! ## Theorems -/

/-- On a `≤`-sorted list, a successful `find?` for `t ≤ ·` returns a
lower bound of every qualifying element. -/
theorem find?_min_of_sorted {t s : ℚ} :
    ∀ {l : List ℚ}, l.Sorted (· ≤ ·) →
      l.find? (fun x => decide (t ≤ x)) = some s →
      ∀ x ∈ l, t ≤ x → s ≤ x := by
  intro l
  induction l with
  | nil => intro _ h; simp [List.find?] at h
  | cons a as ih =>
    intro hsort hfind x hx htx
    by_cases ha : t ≤ a
    · have hs : a = s := by simpa [List.find?_cons, ha] using hfind
      rcases List.mem_cons.mp hx with rfl | hx
      · exact le_of_eq hs.symm
      · exact hs ▸ (List.sorted_cons.mp hsort).1 x hx
    · have hfind' : as.find? (fun x => decide (t ≤ x)) = some s := by
        simpa [List.find?_cons, ha] using hfind
      rcases List.mem_cons.mp hx with rfl | hx
      · exact absurd htx ha
      · exact ih (List.sorted_cons.mp hsort).2 hfind' x hx htx

/-- On a `≤`-sorted list the last element bounds every member. -/
theorem le_getLast?_of_sorted {s : ℚ} :
    ∀ {l : List ℚ}, l.Sorted (· ≤ ·) → l.getLast? = some s →
      ∀ x ∈ l, x ≤ s := by
  intro l
  induction l with
  | nil => intro _ h; simp at h
  | cons a as ih =>
    intro hsort hlast x hx
    cases as with
    | nil =>
      simp at hlast
      rcases List.mem_cons.mp hx with rfl | hx
      · exact le_of_eq hlast
      · simp at hx
    | cons b bs =>
      rw [List.getLast?_cons_cons] at hlast
      rcases List.mem_cons.mp hx with rfl | hx
      · calc x ≤ b := (List.sorted_cons.mp hsort).1 b (by simp)
          _ ≤ s := ih (List.sorted_cons.mp hsort).2 hlast b (by simp)
      · exact ih (List.sorted_cons.mp hsort).2 hlast x hx

/-- CLAIM C5: for every nominal current `≤ 0` (and any configuration,
normativa, active-normativa name and custom-structure flag),
`apply_correction_factors` does not raise: it returns the safety fallback
`i_nominal / 1.25`. -/
theorem apply_correction_factors_nonpositive_fallback
    (i_nominal : ℚ) (cfg : CalcConfig) (norm : NormativaConfig)
    (normativa_used : String) (custom_valid : Bool)
    (h : i_nominal ≤ 0) :
    apply_correction_factors i_nominal cfg norm normativa_used custom_valid =
      i_nominal / (5/4) := by
  unfold apply_correction_factors
  rw [if_pos h]

/-- Witness for C5 at the concrete input `-3` with the demo configuration. -/
theorem apply_correction_factors_nonpositive_fallback_witness :
    apply_correction_factors (-3) demoCfg demoNorm "IEC" true = (-3) / (5/4) :=
  apply_correction_factors_nonpositive_fallback (-3) demoCfg demoNorm "IEC" true
    (by norm_num)

/-- CLAIM C9: a row whose positive or negative conductor length exceeds
10000 m yields an `"ERROR"`-status result from `calculate_string_section`
even though both lengths are strictly positive. -/
theorem calculate_string_section_rejects_overlong
    (row : Row) (cfg0 : CalcConfig) (norm : NormativaConfig)
    (materials : List (String × MaterialProps)) (sc : SectionsConfig)
    (custom_valid : Bool) (circuit_type : String)
    (hpos : 0 < row.length_pos_m) (hneg : 0 < row.length_neg_m)
    (hbig : 10000 < row.length_pos_m ∨ 10000 < row.length_neg_m) :
    (calculate_string_section row cfg0 norm materials sc custom_valid
        circuit_type).calculation_status = some "ERROR" := by
  have hcore : ∃ e, string_section_core row cfg0 norm materials sc custom_valid
      circuit_type = Except.error e := by
    unfold string_section_core
    cases hv : validate_config_parameters cfg0 with
    | error e => exact ⟨e, rfl⟩
    | ok cfg =>
      have h0 : ¬ (row.length_pos_m ≤ 0 ∨ row.length_neg_m ≤ 0) := by
        push_neg
        exact ⟨hpos, hneg⟩
      exact ⟨"Longitudes excesivas (maximo 10km)", by simp [h0, hbig]⟩
  rcases hcore with ⟨e, he⟩
  unfold calculate_string_section
  rw [he]

/-- Witness for C9: a 20 km positive run is rejected with `"ERROR"`. -/
theorem calculate_string_section_rejects_overlong_witness :
    (calculate_string_section ⟨"S1", 20000, 20⟩ demoCfg demoNorm demoMaterials
        demoSections true "dc_strings").calculation_status = some "ERROR" :=
  calculate_string_section_rejects_overlong ⟨"S1", 20000, 20⟩ demoCfg demoNorm
    demoMaterials demoSections true "dc_strings"
    (by norm_num) (by norm_num) (Or.inl (by norm_num))

/-- CLAIM C10: `validate_config_parameters` clamps the parallel-string
count into `[1, 100]` (below 1 becomes 1, above 100 becomes 100, values in
range pass through), so every sizing computation reads a count in
`[1, 100]`; and it raises exactly when `isc_ref ≤ 0`. -/
theorem validate_config_parameters_clamps (cfg : CalcConfig) :
    (∀ cfg', validate_config_parameters cfg = Except.ok cfg' →
      (1 ≤ cfg'.number_of_parallel_strings.getD 1
        ∧ cfg'.number_of_parallel_strings.getD 1 ≤ 100)
      ∧ (cfg.number_of_parallel_strings.getD 1 < 1 →
          cfg'.number_of_parallel_strings = some 1)
      ∧ (100 < cfg.number_of_parallel_strings.getD 1 →
          cfg'.number_of_parallel_strings = some 100)
      ∧ (1 ≤ cfg.number_of_parallel_strings.getD 1
          ∧ cfg.number_of_parallel_strings.getD 1 ≤ 100 →
          cfg'.number_of_parallel_strings = cfg.number_of_parallel_strings))
    ∧ ((∃ e, validate_config_parameters cfg = Except.error e) ↔
        cfg.isc_ref.getD 0 ≤ 0) := by
  have heq : validate_config_parameters cfg =
      (if cfg.isc_ref.getD 0 ≤ 0 then
        Except.error "La corriente ISC debe ser mayor a 0A"
      else Except.ok { cfg with
        voltage_drop := validated_vdrop cfg
        number_of_parallel_strings := validated_nps cfg }) := by
    unfold validate_config_parameters validated_vdrop validated_nps
    simp only []
    split_ifs <;> rfl
  refine ⟨?_, ?_, ?_⟩
  · intro cfg' hok
    rw [heq] at hok
    split_ifs at hok with h5
    injection hok with hok
    subst hok
    unfold validated_nps
    dsimp only
    split_ifs with h3 h4 <;> refine ⟨⟨?_, ?_⟩, ?_, ?_, ?_⟩ <;> simp_all <;> try omega
  · rintro ⟨e, he⟩
    rw [heq] at he
    split_ifs at he with h5
    exact h5
  · intro hisc
    rw [heq]
    rw [if_pos hisc]
    exact ⟨_, rfl⟩

/-- Witness for C10: a config asking for 500 parallel strings is clamped
to 100, and a config with `isc_ref = 0` is rejected. -/
theorem validate_config_parameters_clamps_witness :
    (∃ cfg', validate_config_parameters
          { demoCfg with number_of_parallel_strings := some 500 } = Except.ok cfg'
        ∧ cfg'.number_of_parallel_strings = some 100
        ∧ 1 ≤ cfg'.number_of_parallel_strings.getD 1
        ∧ cfg'.number_of_parallel_strings.getD 1 ≤ 100)
    ∧ (∃ e, validate_config_parameters { demoCfg with isc_ref := some 0 } =
        Except.error e) := by
  constructor
  · have h := (validate_config_parameters_clamps
      { demoCfg with number_of_parallel_strings := some 500 }).1
    have hok : validate_config_parameters
        { demoCfg with number_of_parallel_strings := some 500 } =
        Except.ok { demoCfg with number_of_parallel_strings := some 100 } := by
      norm_num [validate_config_parameters, demoCfg, demoVd]
    refine ⟨_, hok, (h _ hok).2.2.1 (by decide), (h _ hok).1.1, (h _ hok).1.2⟩
  · exact ((validate_config_parameters_clamps
      { demoCfg with isc_ref := some 0 }).2).mpr (by norm_num [demoCfg])


/-- COUNTEREXAMPLE to C4: the code validates the temperature factor only
against `(0, 2]` (string_calculator.py:847-849), not `(0, 1.2]`: a table
factor of 1.5 at 25 (outside `(0, 1.2]`) is kept, so the corrected current
is `10 / (1.5 * 1) = 20/3`, not the `10 / (0.8 * 1) = 12.5` the claim
demands. -/
theorem apply_correction_factors_keeps_high_temp_factor :
    apply_correction_factors 10 cexCfg cexNorm "IEC" true = 20/3
    ∧ ¬ ((20 : ℚ)/3 = 10 / ((4/5) * 1)) := by
  constructor
  · norm_num [apply_correction_factors, cexCfg, cexNorm, temp_factor_lookup,
      alookup, get_grouping_factor_safe]
  · norm_num

/-- CLAIM C4 (amended): before the corrected current is computed, the
temperature factor is validated to lie in `(0, 2]` and the grouping factor
in `(0, 1.2]`; a factor outside its interval is replaced by the
conservative default 0.8, no exception is raised, and the returned
corrected current is `i_nominal / (temp_factor * group_factor)` with the
validated factors. -/
theorem apply_correction_factors_validated_factors
    (i_nominal : ℚ) (cfg : CalcConfig) (norm : NormativaConfig)
    (normativa_used : String) (custom_valid : Bool)
    (hpos : 0 < i_nominal)
    (hnp : ¬ (normativa_used = "PERSONALIZADA" ∧ custom_valid = false)) :
    ∃ tf gf,
      apply_correction_factors i_nominal cfg norm normativa_used custom_valid =
        i_nominal / (tf * gf)
      ∧ 0 < tf ∧ tf ≤ 2 ∧ 0 < gf ∧ gf ≤ 6/5
      ∧ (let tf0 := temp_factor_lookup norm.temperature_values
           (cfg.current_ambient.getD (cfg.cf_current_ambient.getD
             (norm.ambient_design.getD 30)))
         ((0 < tf0 ∧ tf0 ≤ 2) → tf = tf0) ∧ ((tf0 ≤ 0 ∨ 2 < tf0) → tf = 4/5))
      ∧ (let gf0 := get_grouping_factor_safe norm
           (cfg.number_of_parallel_strings.getD 1)
           (cfg.method.getD (cfg.inst_method.getD
             (norm.installation_method.getD "conduit")))
           (cfg.layout.getD (cfg.inst_layout.getD
             (norm.installation_layout.getD "single_layer")))
         ((0 < gf0 ∧ gf0 ≤ 6/5) → gf = gf0) ∧ ((gf0 ≤ 0 ∨ 6/5 < gf0) → gf = 4/5)) := by
  unfold apply_correction_factors
  rw [if_neg (not_le.mpr hpos), if_neg hnp]
  simp only []
  set tf0 := temp_factor_lookup norm.temperature_values
    (cfg.current_ambient.getD (cfg.cf_current_ambient.getD
      (norm.ambient_design.getD 30))) with htf0
  set gf0 := get_grouping_factor_safe norm
    (cfg.number_of_parallel_strings.getD 1)
    (cfg.method.getD (cfg.inst_method.getD (norm.installation_method.getD "conduit")))
    (cfg.layout.getD (cfg.inst_layout.getD (norm.installation_layout.getD "single_layer")))
    with hgf0
  refine ⟨if tf0 ≤ 0 ∨ 2 < tf0 then 4/5 else tf0,
         if gf0 ≤ 0 ∨ 6/5 < gf0 then 4/5 else gf0, rfl, ?_, ?_, ?_, ?_, ?_, ?_⟩
  · split_ifs with h
    · norm_num
    · push_neg at h
      exact h.1
  · split_ifs with h
    · norm_num
    · push_neg at h
      exact h.2
  · split_ifs with h
    · norm_num
    · push_neg at h
      exact h.1
  · split_ifs with h
    · norm_num
    · push_neg at h
      exact h.2
  · constructor
    · intro h
      rw [if_neg]
      push_neg
      exact h
    · intro h
      rw [if_pos h]
  · constructor
    · intro h
      rw [if_neg]
      push_neg
      exact h
    · intro h
      rw [if_pos h]

/-- Witness for the amended C4 at the counterexample configuration. -/
theorem apply_correction_factors_validated_factors_witness :
    ∃ tf gf,
      apply_correction_factors 10 cexCfg cexNorm "IEC" true = 10 / (tf * gf)
      ∧ 0 < tf ∧ tf ≤ 2 ∧ 0 < gf ∧ gf ≤ 6/5
      ∧ (let tf0 := temp_factor_lookup cexNorm.temperature_values
           (cexCfg.current_ambient.getD (cexCfg.cf_current_ambient.getD
             (cexNorm.ambient_design.getD 30)))
         ((0 < tf0 ∧ tf0 ≤ 2) → tf = tf0) ∧ ((tf0 ≤ 0 ∨ 2 < tf0) → tf = 4/5))
      ∧ (let gf0 := get_grouping_factor_safe cexNorm
           (cexCfg.number_of_parallel_strings.getD 1)
           (cexCfg.method.getD (cexCfg.inst_method.getD
             (cexNorm.installation_method.getD "conduit")))
           (cexCfg.layout.getD (cexCfg.inst_layout.getD
             (cexNorm.installation_layout.getD "single_layer")))
         ((0 < gf0 ∧ gf0 ≤ 6/5) → gf = gf0) ∧ ((gf0 ≤ 0 ∨ 6/5 < gf0) → gf = 4/5)) :=
  apply_correction_factors_validated_factors 10 cexCfg cexNorm "IEC" true
    (by norm_num) (by simp)


/-- Helper for C1: if `string_section_core` succeeds while the catalog for
the circuit type is empty, the result's voltage status is `NO_SECTION`. -/
theorem core_ok_empty_catalog (row : Row) (cfg0 : CalcConfig)
    (norm : NormativaConfig) (materials : List (String × MaterialProps))
    (sc : SectionsConfig) (custom_valid : Bool) (circuit_type : String)
    (r : StringResult)
    (hcat : alookup circuit_type sc.tables = some [])
    (hok : string_section_core row cfg0 norm materials sc custom_valid
      circuit_type = Except.ok r) :
    r.voltage_status = some "NO_SECTION" := by
  unfold string_section_core at hok
  cases hval : validate_config_parameters cfg0 with
  | error e => rw [hval] at hok; exact absurd hok (by simp)
  | ok cfg =>
    rw [hval] at hok
    simp only [] at hok
    by_cases h0 : row.length_pos_m ≤ 0 ∨ row.length_neg_m ≤ 0
    · rw [if_pos h0] at hok; exact absurd hok (by simp)
    · rw [if_neg h0] at hok
      by_cases h1 : 10000 < row.length_pos_m ∨ 10000 < row.length_neg_m
      · rw [if_pos h1] at hok; exact absurd hok (by simp)
      · rw [if_neg h1] at hok
        cases hisc : cfg.isc_ref with
        | none => rw [hisc] at hok; exact absurd hok (by simp)
        | some isc =>
          rw [hisc] at hok
          simp only [] at hok
          cases hmat : get_material_resistivity materials
              (cfg.cable_material.getD "copper")
              ((cfg.cf_current_ambient.getD 30 : ℤ) : ℚ) with
          | error e => rw [hmat] at hok; exact absurd hok (by simp)
          | ok resistivity =>
            rw [hmat] at hok
            simp only [] at hok
            cases hvd : cfg.voltage_drop with
            | none => rw [hvd] at hok; exact absurd hok (by simp)
            | some vd =>
              rw [hvd] at hok
              simp only [] at hok
              cases hmp : vd.max_percentage with
              | none => rw [hmp] at hok; simp at hok
              | some mp =>
                cases hvr : vd.reference_voltage with
                | none => rw [hmp, hvr] at hok; simp at hok
                | some vr =>
                  rw [hmp, hvr] at hok
                  simp only [] at hok
                  by_cases h2 : vr * (mp / 100) ≤ 0
                  · rw [if_pos h2] at hok; exact absurd hok (by simp)
                  · rw [if_neg h2] at hok
                    by_cases h3 : (2 * resistivity *
                        (row.length_pos_m + row.length_neg_m) *
                        apply_correction_factors (isc * cfg.isc_correction.getD (5/4))
                          cfg norm sc.normativa_used custom_valid) /
                          (vr * (mp / 100)) ≤ 0
                    · rw [if_pos h3] at hok; exact absurd hok (by simp)
                    · rw [if_neg h3] at hok
                      have hav : get_available_sections sc circuit_type =
                          Except.ok [] := by
                        unfold get_available_sections
                        rw [hcat]
                      rw [hav] at hok
                      simp only [] at hok
                      injection hok with hok
                      subst hok
                      simp [build_success_result, get_commercial_section]


/-- CLAIM C1: `get_commercial_section` returns, for a nonempty catalog,
the smallest entry `≥` the theoretical section when one exists, else the
catalog maximum (it never fails); for an empty catalog it returns `none`,
and in that case a successful sizing result carries voltage status
`NO_SECTION`. -/
theorem get_commercial_section_spec (catalog : List ℚ) (t : ℚ) :
    (catalog = [] → get_commercial_section catalog t = none)
    ∧ (catalog ≠ [] → ∃ s, get_commercial_section catalog t = some s)
    ∧ (∀ s, get_commercial_section catalog t = some s →
        s ∈ catalog
        ∧ ((∃ x ∈ catalog, t ≤ x) → t ≤ s ∧ ∀ x ∈ catalog, t ≤ x → s ≤ x)
        ∧ ((∀ x ∈ catalog, x < t) → ∀ x ∈ catalog, x ≤ s))
    ∧ (∀ (row : Row) (cfg0 : CalcConfig) (norm : NormativaConfig)
        (materials : List (String × MaterialProps)) (sc : SectionsConfig)
        (custom_valid : Bool) (circuit_type : String),
        alookup circuit_type sc.tables = some [] →
        (calculate_string_section row cfg0 norm materials sc custom_valid
          circuit_type).calculation_status = some "SUCCESS" →
        (calculate_string_section row cfg0 norm materials sc custom_valid
          circuit_type).voltage_status = some "NO_SECTION") := by
  have hsorted : List.Sorted (· ≤ ·) (catalog.insertionSort (· ≤ ·)) :=
    List.sorted_insertionSort _ catalog
  have hperm : List.Perm (catalog.insertionSort (· ≤ ·)) catalog :=
    List.perm_insertionSort _ catalog
  refine ⟨?_, ?_, ?_, ?_⟩
  · intro h
    subst h
    rfl
  · intro hne
    unfold get_commercial_section
    cases hfind : (catalog.insertionSort (· ≤ ·)).find?
        (fun s => decide (t ≤ s)) with
    | some s => exact ⟨s, by simp [hfind]⟩
    | none =>
      have hne2 : catalog.insertionSort (· ≤ ·) ≠ [] := by
        intro h
        rw [h] at hperm
        exact hne hperm.symm.eq_nil
      have := List.getLast?_isSome.mpr hne2
      rcases Option.isSome_iff_exists.mp this with ⟨s, hs⟩
      exact ⟨s, by simp [hfind, hs]⟩
  · intro s hs
    unfold get_commercial_section at hs
    simp only [] at hs
    cases hfind : (catalog.insertionSort (· ≤ ·)).find?
        (fun x => decide (t ≤ x)) with
    | some s' =>
      rw [hfind] at hs
      simp only [] at hs
      injection hs with hs
      rw [hs] at hfind
      have hmem : s ∈ catalog := hperm.subset (List.mem_of_find?_eq_some hfind)
      have hts : t ≤ s := by
        have := List.find?_some hfind
        simpa using this
      refine ⟨hmem, ?_, ?_⟩
      · intro _
        refine ⟨hts, ?_⟩
        intro x hx htx
        exact find?_min_of_sorted hsorted hfind x
          ((hperm.mem_iff).mpr hx) htx
      · intro hall
        exact absurd hts (not_le.mpr (hall s hmem))
    | none =>
      rw [hfind] at hs
      simp only [] at hs
      have hmem : s ∈ catalog :=
        hperm.subset (List.mem_of_getLast?_eq_some hs)
      refine ⟨hmem, ?_, ?_⟩
      · rintro ⟨x, hx, htx⟩
        have := List.find?_eq_none.mp hfind x ((hperm.mem_iff).mpr hx)
        simp at this
        exact absurd htx (not_le.mpr this)
      · intro _ x hx
        exact le_getLast?_of_sorted hsorted hs x ((hperm.mem_iff).mpr hx)
  · intro row cfg0 norm materials sc custom_valid circuit_type hcat hsucc
    unfold calculate_string_section at hsucc ⊢
    cases hcore : string_section_core row cfg0 norm materials sc custom_valid
        circuit_type with
    | error e =>
      rw [hcore] at hsucc
      simp at hsucc
    | ok r =>
      simp only [] at hsucc ⊢
      exact core_ok_empty_catalog row cfg0 norm materials sc custom_valid
        circuit_type r hcat hcore

/-- Witness for C1 on the demo catalog: theoretical 0.978 rounds up to
1.5; 30 exceeds the maximum 25 and yields 25; the empty catalog gives
`none` and a successful run on it reports `NO_SECTION`. -/
theorem get_commercial_section_spec_witness :
    (get_commercial_section [] (978/1000) = none)
    ∧ (∃ s, get_commercial_section [3/2, 5/2, 4, 6, 10, 16, 25] (978/1000) = some s)
    ∧ ((978/1000 : ℚ) ≤ 3/2 ∧ ∀ x ∈ [(3:ℚ)/2, 5/2, 4, 6, 10, 16, 25],
        978/1000 ≤ x → 3/2 ≤ x) := by
  refine ⟨(get_commercial_section_spec [] (978/1000)).1 rfl, ?_, ?_⟩
  · exact (get_commercial_section_spec [3/2, 5/2, 4, 6, 10, 16, 25]
      (978/1000)).2.1 (by simp)
  · have h := ((get_commercial_section_spec [3/2, 5/2, 4, 6, 10, 16, 25]
      (978/1000)).2.2.1 (3/2) (by norm_num [get_commercial_section])).2.1
      ⟨3/2, by norm_num, by norm_num⟩
    exact h


/-- Helper: a row with a nonpositive length yields an `"ERROR"` result. -/
theorem calculate_string_section_error_of_nonpos
    (row : Row) (cfg0 : CalcConfig) (norm : NormativaConfig)
    (materials : List (String × MaterialProps)) (sc : SectionsConfig)
    (custom_valid : Bool) (circuit_type : String)
    (hbad : row.length_pos_m ≤ 0 ∨ row.length_neg_m ≤ 0) :
    (calculate_string_section row cfg0 norm materials sc custom_valid
        circuit_type).calculation_status = some "ERROR"
    ∧ (calculate_string_section row cfg0 norm materials sc custom_valid
        circuit_type).error.isSome = true := by
  have hcore : ∃ e, string_section_core row cfg0 norm materials sc custom_valid
      circuit_type = Except.error e := by
    unfold string_section_core
    cases hv : validate_config_parameters cfg0 with
    | error e => exact ⟨e, rfl⟩
    | ok cfg => exact ⟨"Longitudes invalidas", by simp [hbad]⟩
  rcases hcore with ⟨e, he⟩
  unfold calculate_string_section
  rw [he]
  exact ⟨rfl, rfl⟩

/-- Helper: the batch runner produces one result per row. -/
theorem run_batch_length (f : Row → Except String StringResult)
    (sc : SectionsConfig) :
    ∀ rows : List Row, (run_batch f sc rows).1.length = rows.length := by
  intro rows
  induction rows with
  | nil => rfl
  | cons row rest ih => simp [run_batch, ih]

/-- Helper: the i-th batch result is the per-row outcome of the i-th row
(the `error` case is the `FATAL_ERROR` record). -/
theorem run_batch_get? (f : Row → Except String StringResult)
    (sc : SectionsConfig) :
    ∀ (rows : List Row) (i : ℕ),
      (run_batch f sc rows).1.get? i =
        (rows.get? i).map (fun row =>
          match f row with
          | Except.ok r => r
          | Except.error e => fatal_result row e sc) := by
  intro rows
  induction rows with
  | nil => intro i; rfl
  | cons row rest ih =>
    intro i
    cases i with
    | zero =>
      simp only [run_batch, List.get?, Option.map_some']
      cases f row <;> rfl
    | succ j =>
      simp only [run_batch, List.get?]
      exact ih j

/-- Helper: success count plus error count equals the number of rows. -/
theorem run_batch_counts (f : Row → Except String StringResult)
    (sc : SectionsConfig) :
    ∀ rows : List Row,
      (run_batch f sc rows).2.1 + (run_batch f sc rows).2.2 = rows.length := by
  intro rows
  induction rows with
  | nil => rfl
  | cons row rest ih =>
    simp only [run_batch, List.length_cons]
    split_ifs <;> omega


/-- CLAIM C6: `calculate_all_strings` returns one result per input row in
input order; a row whose sizing raises (e.g. a nonpositive length) yields
an `"ERROR"`-tagged failure result while every other row keeps its own
result; a per-row call that raises unexpectedly yields a `FATAL_ERROR`
row; and success count plus error count equals the number of rows. -/
theorem calculate_all_strings_spec (rows : List Row) (cfg0 : CalcConfig)
    (norm : NormativaConfig) (materials : List (String × MaterialProps))
    (sc : SectionsConfig) (custom_valid : Bool) (circuit_type : String) :
    ((calculate_all_strings rows cfg0 norm materials sc custom_valid
        circuit_type).1.length = rows.length)
    ∧ (∀ i : ℕ, (calculate_all_strings rows cfg0 norm materials sc custom_valid
        circuit_type).1.get? i =
        (rows.get? i).map (fun row =>
          calculate_string_section row cfg0 norm materials sc custom_valid
            circuit_type))
    ∧ (∀ (i : ℕ) (row : Row), rows.get? i = some row →
        row.length_pos_m ≤ 0 ∨ row.length_neg_m ≤ 0 →
        ∃ r, (calculate_all_strings rows cfg0 norm materials sc custom_valid
            circuit_type).1.get? i = some r
          ∧ r.calculation_status = some "ERROR" ∧ r.error.isSome = true)
    ∧ ((calculate_all_strings rows cfg0 norm materials sc custom_valid
        circuit_type).2.1 +
       (calculate_all_strings rows cfg0 norm materials sc custom_valid
        circuit_type).2.2 = rows.length)
    ∧ (∀ (f : Row → Except String StringResult),
        ((run_batch f sc rows).2.1 + (run_batch f sc rows).2.2 = rows.length)
        ∧ ∀ (i : ℕ) (row : Row) (e : String), rows.get? i = some row →
            f row = Except.error e →
            (run_batch f sc rows).1.get? i = some (fatal_result row e sc)
            ∧ (fatal_result row e sc).status = some "FATAL_ERROR") := by
  refine ⟨run_batch_length _ sc rows, ?_, ?_, run_batch_counts _ sc rows, ?_⟩
  · intro i
    rw [calculate_all_strings, run_batch_get?]
  · intro i row hrow hbad
    refine ⟨calculate_string_section row cfg0 norm materials sc custom_valid
      circuit_type, ?_, ?_, ?_⟩
    · rw [calculate_all_strings, run_batch_get?, hrow]
      rfl
    · exact (calculate_string_section_error_of_nonpos row cfg0 norm materials
        sc custom_valid circuit_type hbad).1
    · exact (calculate_string_section_error_of_nonpos row cfg0 norm materials
        sc custom_valid circuit_type hbad).2
  · intro f
    refine ⟨run_batch_counts f sc rows, ?_⟩
    intro i row e hrow hf
    refine ⟨?_, rfl⟩
    rw [run_batch_get?, hrow]
    simp [hf]

/-- Witness for C6: a two-row batch where the first row has a negative
positive-conductor length: the first result is an `"ERROR"` row, the
second is the normal result of the second row, the counts add up to 2,
and a raising per-row call yields a `FATAL_ERROR` row. -/
theorem calculate_all_strings_spec_witness :
    (∃ r, (calculate_all_strings [⟨"B", -5, 20⟩, ⟨"G", 20, 20⟩] demoCfg demoNorm
        demoMaterials demoSections true "dc_strings").1.get? 0 = some r
      ∧ r.calculation_status = some "ERROR" ∧ r.error.isSome = true)
    ∧ ((calculate_all_strings [⟨"B", -5, 20⟩, ⟨"G", 20, 20⟩] demoCfg demoNorm
        demoMaterials demoSections true "dc_strings").1.get? 1 =
        some (calculate_string_section ⟨"G", 20, 20⟩ demoCfg demoNorm
          demoMaterials demoSections true "dc_strings"))
    ∧ ((calculate_all_strings [⟨"B", -5, 20⟩, ⟨"G", 20, 20⟩] demoCfg demoNorm
        demoMaterials demoSections true "dc_strings").2.1 +
       (calculate_all_strings [⟨"B", -5, 20⟩, ⟨"G", 20, 20⟩] demoCfg demoNorm
        demoMaterials demoSections true "dc_strings").2.2 = 2)
    ∧ ((run_batch (fun row => Except.error "boom") demoSections
        [⟨"B", -5, 20⟩, ⟨"G", 20, 20⟩]).1.get? 0 =
        some (fatal_result ⟨"B", -5, 20⟩ "boom" demoSections)
      ∧ (fatal_result ⟨"B", -5, 20⟩ "boom" demoSections).status =
        some "FATAL_ERROR") := by
  have h := calculate_all_strings_spec [⟨"B", -5, 20⟩, ⟨"G", 20, 20⟩] demoCfg
    demoNorm demoMaterials demoSections true "dc_strings"
  refine ⟨h.2.2.1 0 ⟨"B", -5, 20⟩ rfl (Or.inl (by norm_num)), ?_, ?_, ?_⟩
  · rw [h.2.1 1]
    rfl
  · exact h.2.2.2.1
  · exact (h.2.2.2.2 (fun _ => Except.error "boom")).2 0 ⟨"B", -5, 20⟩ "boom"
      rfl rfl


/-- Helper: the CN1 success record keeps its aggregation fields in every
commercial-section branch. -/
theorem build_cn1_success_result_fields (cid nid : String) (n : ℤ)
    (sc : SectionsConfig) (ct mat : String)
    (ib ic lt inom iadj ρ st mv mp vr : ℚ) (s_com : Option ℚ) :
    (build_cn1_success_result cid nid n sc ct mat ib ic lt inom iadj ρ st
        mv mp vr s_com).parallel_strings = some n
    ∧ (build_cn1_success_result cid nid n sc ct mat ib ic lt inom iadj ρ st
        mv mp vr s_com).isc_combined = some (pyRound 2 ic)
    ∧ (build_cn1_success_result cid nid n sc ct mat ib ic lt inom iadj ρ st
        mv mp vr s_com).i_nominal = some (pyRound 2 inom)
    ∧ (build_cn1_success_result cid nid n sc ct mat ib ic lt inom iadj ρ st
        mv mp vr s_com).i_adjusted = some (pyRound 2 iadj)
    ∧ (build_cn1_success_result cid nid n sc ct mat ib ic lt inom iadj ρ st
        mv mp vr s_com).calculation_status = some "SUCCESS" := by
  unfold build_cn1_success_result
  cases s_com with
  | none => simp
  | some s' =>
    by_cases h : 0 < s' <;> simp [h]

/-- CLAIM C7: for a CN1 row whose pipeline succeeds, the parallel count is
looked up under the normalized circuit id (defaulting to 1 when absent),
the combined current is `isc_base * parallelStringCount`, the nominal
current is the combined current times the safety factor, and exactly this
current feeds `apply_correction_factors`; an id absent from the mapping
still sizes successfully. -/
theorem calculate_cn1_section_combined (row : Cn1Row) (cfg0 cfg' : CalcConfig)
    (norm : NormativaConfig) (materials : List (String × MaterialProps))
    (sc : SectionsConfig) (custom_valid : Bool) (circuit_type : String)
    (vd : VoltageDropCfg) (mp vr isc ρ : ℚ) (catalog : List ℚ)
    (hval : validate_config_parameters cfg0 = Except.ok cfg')
    (hpos : 0 < row.length_pos_m) (hneg : 0 < row.length_neg_m)
    (hisc : cfg'.isc_ref = some isc)
    (hmat : get_material_resistivity materials (cfg'.cable_material.getD "copper")
      ((cfg'.cf_current_ambient.getD 30 : ℤ) : ℚ) = Except.ok ρ)
    (hvd : cfg'.voltage_drop = some vd)
    (hmp : vd.max_percentage = some mp)
    (hvr : vd.reference_voltage = some vr)
    (hbud : 0 < vr * (mp / 100))
    (hcat : alookup circuit_type sc.tables = some catalog)
    (hteo : 0 < (2 * ρ * (row.length_pos_m + row.length_neg_m) *
      apply_correction_factors
        (isc * (((alookup (normalizeCn1Key row.circuit_id row.inverter_id)
            cfg'.cn1_parallel_mapping).getD 1 : ℤ) : ℚ) *
          cfg'.isc_correction.getD (5/4))
        cfg' norm sc.normativa_used custom_valid) / (vr * (mp / 100))) :
    (calculate_cn1_section row cfg0 norm materials sc custom_valid
        circuit_type).parallel_strings =
      some ((alookup (normalizeCn1Key row.circuit_id row.inverter_id)
        cfg'.cn1_parallel_mapping).getD 1)
    ∧ (calculate_cn1_section row cfg0 norm materials sc custom_valid
        circuit_type).isc_combined =
      some (pyRound 2 (isc * (((alookup (normalizeCn1Key row.circuit_id
        row.inverter_id) cfg'.cn1_parallel_mapping).getD 1 : ℤ) : ℚ)))
    ∧ (calculate_cn1_section row cfg0 norm materials sc custom_valid
        circuit_type).i_nominal =
      some (pyRound 2 (isc * (((alookup (normalizeCn1Key row.circuit_id
        row.inverter_id) cfg'.cn1_parallel_mapping).getD 1 : ℤ) : ℚ) *
        cfg'.isc_correction.getD (5/4)))
    ∧ (calculate_cn1_section row cfg0 norm materials sc custom_valid
        circuit_type).i_adjusted =
      some (pyRound 2 (apply_correction_factors
        (isc * (((alookup (normalizeCn1Key row.circuit_id row.inverter_id)
            cfg'.cn1_parallel_mapping).getD 1 : ℤ) : ℚ) *
          cfg'.isc_correction.getD (5/4))
        cfg' norm sc.normativa_used custom_valid))
    ∧ (calculate_cn1_section row cfg0 norm materials sc custom_valid
        circuit_type).calculation_status = some "SUCCESS"
    ∧ (alookup (normalizeCn1Key row.circuit_id row.inverter_id)
        cfg'.cn1_parallel_mapping = none →
        (alookup (normalizeCn1Key row.circuit_id row.inverter_id)
          cfg'.cn1_parallel_mapping).getD 1 = 1) := by
  have h0 : ¬ (row.length_pos_m ≤ 0 ∨ row.length_neg_m ≤ 0) := by
    push_neg
    exact ⟨hpos, hneg⟩
  have hcore : cn1_section_core row cfg0 norm materials sc custom_valid
      circuit_type = Except.ok (build_cn1_success_result row.circuit_id
        (normalizeCn1Key row.circuit_id row.inverter_id)
        ((alookup (normalizeCn1Key row.circuit_id row.inverter_id)
          cfg'.cn1_parallel_mapping).getD 1) sc circuit_type
        (cfg'.cable_material.getD "copper") isc
        (isc * (((alookup (normalizeCn1Key row.circuit_id row.inverter_id)
          cfg'.cn1_parallel_mapping).getD 1 : ℤ) : ℚ))
        (row.length_pos_m + row.length_neg_m)
        (isc * (((alookup (normalizeCn1Key row.circuit_id row.inverter_id)
          cfg'.cn1_parallel_mapping).getD 1 : ℤ) : ℚ) *
          cfg'.isc_correction.getD (5/4))
        (apply_correction_factors
          (isc * (((alookup (normalizeCn1Key row.circuit_id row.inverter_id)
            cfg'.cn1_parallel_mapping).getD 1 : ℤ) : ℚ) *
            cfg'.isc_correction.getD (5/4))
          cfg' norm sc.normativa_used custom_valid)
        ρ
        ((2 * ρ * (row.length_pos_m + row.length_neg_m) *
          apply_correction_factors
            (isc * (((alookup (normalizeCn1Key row.circuit_id row.inverter_id)
              cfg'.cn1_parallel_mapping).getD 1 : ℤ) : ℚ) *
              cfg'.isc_correction.getD (5/4))
            cfg' norm sc.normativa_used custom_valid) / (vr * (mp / 100)))
        (vr * (mp / 100)) mp vr
        (get_commercial_section catalog
          ((2 * ρ * (row.length_pos_m + row.length_neg_m) *
            apply_correction_factors
              (isc * (((alookup (normalizeCn1Key row.circuit_id
                row.inverter_id) cfg'.cn1_parallel_mapping).getD 1 : ℤ) : ℚ) *
                cfg'.isc_correction.getD (5/4))
              cfg' norm sc.normativa_used custom_valid) /
            (vr * (mp / 100))))) := by
    unfold cn1_section_core
    rw [hval]
    simp only []
    rw [if_neg h0, hisc]
    simp only []
    rw [hmat]
    simp only []
    rw [hvd]
    simp only []
    rw [hmp, hvr]
    simp only []
    rw [if_neg (not_le.mpr hbud), if_neg (not_le.mpr hteo)]
    have hav : get_available_sections sc circuit_type = Except.ok catalog := by
      unfold get_available_sections
      rw [hcat]
    rw [hav]
  unfold calculate_cn1_section
  rw [hcore]
  simp only []
  refine ⟨?_, ?_, ?_, ?_, ?_, ?_⟩
  · exact (build_cn1_success_result_fields _ _ _ _ _ _ _ _ _ _ _ _ _ _ _ _ _).1
  · exact (build_cn1_success_result_fields _ _ _ _ _ _ _ _ _ _ _ _ _ _ _ _ _).2.1
  · exact (build_cn1_success_result_fields _ _ _ _ _ _ _ _ _ _ _ _ _ _ _ _ _).2.2.1
  · exact (build_cn1_success_result_fields _ _ _ _ _ _ _ _ _ _ _ _ _ _ _ _ _).2.2.2.1
  · exact (build_cn1_success_result_fields _ _ _ _ _ _ _ _ _ _ _ _ _ _ _ _ _).2.2.2.2
  · intro habs
    rw [habs]
    rfl


/-- Witness for C7: the circuit id `CN1-7`/`INV-2` is absent from the
(empty) parallel mapping, so the count defaults to 1 and the row is still
sized successfully with combined current `10 * 1`. -/
theorem calculate_cn1_section_combined_witness :
    (calculate_cn1_section ⟨"CN1-7", "INV-2", 30, 30⟩ demoCfg demoNorm
        demoMaterials demoSections true "cn1_inverter").parallel_strings = some 1
    ∧ (calculate_cn1_section ⟨"CN1-7", "INV-2", 30, 30⟩ demoCfg demoNorm
        demoMaterials demoSections true "cn1_inverter").isc_combined =
      some (pyRound 2 (10 * ((1 : ℤ) : ℚ)))
    ∧ (calculate_cn1_section ⟨"CN1-7", "INV-2", 30, 30⟩ demoCfg demoNorm
        demoMaterials demoSections true "cn1_inverter").calculation_status =
      some "SUCCESS" := by
  have hval : validate_config_parameters demoCfg = Except.ok demoCfg := by
    norm_num [validate_config_parameters, demoCfg, demoVd]
  have hmat : get_material_resistivity demoMaterials
      (demoCfg.cable_material.getD "copper")
      ((demoCfg.cf_current_ambient.getD 30 : ℤ) : ℚ) =
      Except.ok (4479383/250000000) := by
    norm_num [get_material_resistivity, demoMaterials, alookup, demoCfg]
  have hcat : alookup "cn1_inverter" demoSections.tables =
      some [16, 25, 35, 50] := by
    simp [demoSections, alookup]
  have h := calculate_cn1_section_combined ⟨"CN1-7", "INV-2", 30, 30⟩ demoCfg
    demoCfg demoNorm demoMaterials demoSections true "cn1_inverter" demoVd
    (3/2) 1500 10 (4479383/250000000) [16, 25, 35, 50]
    hval (by norm_num) (by norm_num) (by rfl) hmat (by rfl) (by rfl) (by rfl)
    (by norm_num) hcat
    (by norm_num [apply_correction_factors, temp_factor_lookup,
      get_grouping_factor_safe, alookup, demoCfg, demoNorm])
  refine ⟨?_, ?_, h.2.2.2.2.1⟩
  · have := h.1
    simpa [alookup, demoCfg] using this
  · have := h.2.1
    simpa [alookup, demoCfg] using this


/-- Dictionary lookup finds the stored value when the keys are distinct. -/
theorem alookup_eq_some_of_mem {α β : Type} [DecidableEq α] {k : α} {v : β} :
    ∀ {l : List (α × β)}, (l.map Prod.fst).Nodup → (k, v) ∈ l →
      alookup k l = some v := by
  intro l
  induction l with
  | nil => intro _ h; simp at h
  | cons p rest ih =>
    intro hnd hmem
    obtain ⟨a, b⟩ := p
    rcases List.mem_cons.mp hmem with heq | hmem'
    · injection heq with h1 h2
      subst h1
      subst h2
      simp [alookup]
    · have hak : a ≠ k := by
        intro h
        subst h
        have : a ∈ rest.map Prod.fst :=
          List.mem_map.mpr ⟨(a, v), hmem', rfl⟩
        exact (List.nodup_cons.mp (by simpa using hnd)).1 this
      simp only [alookup, if_neg hak]
      exact ih (List.nodup_cons.mp (by simpa using hnd)).2 hmem'

/-- Dictionary lookup misses exactly the keys that are absent. -/
theorem alookup_eq_none_of_not_mem {α β : Type} [DecidableEq α] {k : α} :
    ∀ {l : List (α × β)}, (∀ v : β, (k, v) ∉ l) → alookup k l = none := by
  intro l
  induction l with
  | nil => intro _; rfl
  | cons p rest ih =>
    intro h
    obtain ⟨a, b⟩ := p
    have hak : a ≠ k := by
      intro hh
      subst hh
      exact h b (List.mem_cons_self _ _)
    simp only [alookup, if_neg hak]
    exact ih (fun v hv => h v (List.mem_cons_of_mem _ hv))

/-- Two entries with the same key agree when the keys are distinct. -/
theorem key_val_unique {α β : Type} [DecidableEq α] {k : α} {a b : β}
    {l : List (α × β)} (hnd : (l.map Prod.fst).Nodup)
    (h1 : (k, a) ∈ l) (h2 : (k, b) ∈ l) : a = b := by
  have e1 := alookup_eq_some_of_mem hnd h1
  have e2 := alookup_eq_some_of_mem hnd h2
  rw [e1] at e2
  injection e2

instance : IsTotal (ℤ × ℚ) (fun a b => a.1 ≤ b.1) :=
  ⟨fun a b => le_total a.1 b.1⟩

instance : IsTrans (ℤ × ℚ) (fun a b => a.1 ≤ b.1) :=
  ⟨fun _ _ _ h1 h2 => le_trans h1 h2⟩

instance : IsTotal (ℤ × ℚ) (fun a b => b.1 ≤ a.1) :=
  ⟨fun a b => le_total b.1 a.1⟩

instance : IsTrans (ℤ × ℚ) (fun a b => b.1 ≤ a.1) :=
  ⟨fun _ _ _ h1 h2 => le_trans h2 h1⟩

/-- A key-sorted pair list with distinct keys is strictly key-increasing. -/
theorem sorted_key_strict {l : List (ℤ × ℚ)}
    (hs : List.Sorted (fun a b => a.1 ≤ b.1) l)
    (hn : (l.map Prod.fst).Nodup) :
    List.Pairwise (fun a b : ℤ × ℚ => a.1 < b.1) l := by
  have hne : List.Pairwise (fun a b : ℤ × ℚ => a.1 ≠ b.1) l :=
    List.pairwise_map.mp hn
  exact (hs.and hne).imp (fun h => lt_of_le_of_ne h.1 h.2)


/-- The interval scan fires exactly at the bracketing neighbours: on a
strictly key-increasing list containing `k1 < amb < k2` with no key in
between, it interpolates between their factors. -/
theorem interpScan_of_neighbors {amb k1 k2 : ℤ} {f1 f2 : ℚ} :
    ∀ {l : List (ℤ × ℚ)}, List.Pairwise (fun a b : ℤ × ℚ => a.1 < b.1) l →
      (k1, f1) ∈ l → (k2, f2) ∈ l → k1 < amb → amb < k2 →
      (∀ p ∈ l, p.1 ≤ k1 ∨ k2 ≤ p.1) →
      interpScan l amb = some (f1 + (f2 - f1) *
        (((amb : ℚ) - (k1 : ℚ)) / ((k2 : ℚ) - (k1 : ℚ)))) := by
  intro l
  induction l with
  | nil => intro _ h; simp at h
  | cons p tail ih =>
    intro hpw h1 h2 hk1 hk2 hnb
    obtain ⟨t1, g1⟩ := p
    cases tail with
    | nil =>
      rcases List.mem_cons.mp h1 with e1 | e1
      · rcases List.mem_cons.mp h2 with e2 | e2
        · injection e1 with a1 b1
          injection e2 with a2 b2
          omega
        · simp at e2
      · simp at e1
    | cons q rest =>
      obtain ⟨t2, g2⟩ := q
      have hq_cstr : t2 ≤ k1 ∨ k2 ≤ t2 := hnb (t2, g2) (by simp)
      have hp_cstr : t1 ≤ k1 ∨ k2 ≤ t1 := hnb (t1, g1) (by simp)
      have hp_min : ∀ x ∈ (t2, g2) :: rest, t1 < x.1 := by
        intro x hx
        exact (List.pairwise_cons.mp hpw).1 x hx
      have ht1k1 : t1 ≤ k1 := by
        rcases hp_cstr with h | h
        · exact h
        · exfalso
          rcases List.mem_cons.mp h1 with e1 | e1
          · injection e1 with a1 _
            omega
          · have := hp_min _ e1
            omega
      by_cases htest : t1 ≤ amb ∧ amb ≤ t2
      · have hk2t2 : k2 ≤ t2 := by
          rcases hq_cstr with h | h
          · omega
          · exact h
        have hkp : (k1, f1) = (t1, g1) := by
          rcases List.mem_cons.mp h1 with e1 | e1
          · exact e1.symm ▸ rfl
          · exfalso
            rcases List.mem_cons.mp e1 with e2 | e2
            · injection e2 with a2 _
              omega
            · have h3 := (List.pairwise_cons.mp (List.pairwise_cons.mp hpw).2).1 _ e2
              omega
        have hkq : (k2, f2) = (t2, g2) := by
          rcases List.mem_cons.mp h2 with e2 | e2
          · injection e2 with a2 _
            injection hkp with a1 _
            omega
          · rcases List.mem_cons.mp e2 with e3 | e3
            · exact e3.symm ▸ rfl
            · exfalso
              have h3 := (List.pairwise_cons.mp (List.pairwise_cons.mp hpw).2).1 _ e3
              omega
        injection hkp with a1 b1
        injection hkq with a2 b2
        subst a1
        subst b1
        subst a2
        subst b2
        simp only [interpScan, if_pos htest]
      · have ht2amb : t2 < amb := by
          rcases not_and_or.mp htest with h | h
          · omega
          · omega
        have ht2k1 : t2 ≤ k1 := by
          rcases hq_cstr with h | h
          · exact h
          · omega
        have h1' : (k1, f1) ∈ (t2, g2) :: rest := by
          rcases List.mem_cons.mp h1 with e1 | e1
          · exfalso
            injection e1 with a1 _
            have := hp_min (t2, g2) (by simp)
            omega
          · exact e1
        have h2' : (k2, f2) ∈ (t2, g2) :: rest := by
          rcases List.mem_cons.mp h2 with e2 | e2
          · exfalso
            injection e2 with a2 _
            omega
          · exact e2
        have := ih (List.pairwise_cons.mp hpw).2 h1' h2' hk1 hk2
          (fun p hp => hnb p (List.mem_cons_of_mem _ hp))
        simpa [interpScan, if_neg htest] using this

/-- The interval scan misses when the ambient lies below every key. -/
theorem interpScan_none_of_all_gt {amb : ℤ} :
    ∀ {l : List (ℤ × ℚ)}, (∀ p ∈ l, amb < p.1) → interpScan l amb = none := by
  intro l
  induction l with
  | nil => intro _; rfl
  | cons p tail ih =>
    intro h
    obtain ⟨t1, g1⟩ := p
    cases tail with
    | nil => rfl
    | cons q rest =>
      obtain ⟨t2, g2⟩ := q
      have h1 := h (t1, g1) (by simp)
      have htest : ¬ (t1 ≤ amb ∧ amb ≤ t2) := by
        intro hc
        omega
      simp only [interpScan, if_neg htest]
      exact ih (fun p hp => h p (List.mem_cons_of_mem _ hp))

/-- The interval scan misses when the ambient lies above every key. -/
theorem interpScan_none_of_all_lt {amb : ℤ} :
    ∀ {l : List (ℤ × ℚ)}, (∀ p ∈ l, p.1 < amb) → interpScan l amb = none := by
  intro l
  induction l with
  | nil => intro _; rfl
  | cons p tail ih =>
    intro h
    obtain ⟨t1, g1⟩ := p
    cases tail with
    | nil => rfl
    | cons q rest =>
      obtain ⟨t2, g2⟩ := q
      have h2 := h (t2, g2) (by simp)
      have htest : ¬ (t1 ≤ amb ∧ amb ≤ t2) := by
        intro hc
        omega
      simp only [interpScan, if_neg htest]
      exact ih (fun p hp => h p (List.mem_cons_of_mem _ hp))

/-- The nearest-key fold returns the unique strictly-nearest entry. -/
theorem foldl_nearest {amb k0 : ℤ} {f0 : ℚ} :
    ∀ {xs : List (ℤ × ℚ)} {b : ℤ × ℚ},
      (∀ p ∈ xs, p.1 = k0 → p.2 = f0) →
      (∀ p ∈ xs, p.1 ≠ k0 → |k0 - amb| < |p.1 - amb|) →
      (b = (k0, f0) ∨ ((k0, f0) ∈ xs ∧ |k0 - amb| < |b.1 - amb|)) →
      xs.foldl (fun best p => if |p.1 - amb| < |best.1 - amb| then p else best) b
        = (k0, f0) := by
  intro xs
  induction xs with
  | nil =>
    intro b _ _ hb
    rcases hb with hb | hb
    · simpa using hb
    · simp at hb
  | cons x rest ih =>
    intro b hval hdist hb
    simp only [List.foldl_cons]
    rcases hb with hb | ⟨hmem, hbfar⟩
    · subst hb
      by_cases hxk : x.1 = k0
      · have hx : x = (k0, f0) := by
          have := hval x (by simp) hxk
          exact Prod.ext hxk this
        subst hx
        rw [if_neg (lt_irrefl _)]
        exact ih (fun p hp h => hval p (List.mem_cons_of_mem _ hp) h)
          (fun p hp h => hdist p (List.mem_cons_of_mem _ hp) h) (Or.inl rfl)
      · have hfar := hdist x (by simp) hxk
        rw [if_neg (by simpa using not_lt.mpr (le_of_lt hfar))]
        exact ih (fun p hp h => hval p (List.mem_cons_of_mem _ hp) h)
          (fun p hp h => hdist p (List.mem_cons_of_mem _ hp) h) (Or.inl rfl)
    · by_cases hxk : x.1 = k0
      · have hx : x = (k0, f0) := by
          have := hval x (by simp) hxk
          exact Prod.ext hxk this
        subst hx
        rw [if_pos (by simpa using hbfar)]
        exact ih (fun p hp h => hval p (List.mem_cons_of_mem _ hp) h)
          (fun p hp h => hdist p (List.mem_cons_of_mem _ hp) h) (Or.inl rfl)
      · have hmem' : (k0, f0) ∈ rest := by
          rcases List.mem_cons.mp hmem with he | he
          · exfalso
            apply hxk
            rw [← he]
          · exact he
        have hfar := hdist x (by simp) hxk
        by_cases hswap : |x.1 - amb| < |b.1 - amb|
        · rw [if_pos hswap]
          exact ih (fun p hp h => hval p (List.mem_cons_of_mem _ hp) h)
            (fun p hp h => hdist p (List.mem_cons_of_mem _ hp) h)
            (Or.inr ⟨hmem', hfar⟩)
        · rw [if_neg hswap]
          exact ih (fun p hp h => hval p (List.mem_cons_of_mem _ hp) h)
            (fun p hp h => hdist p (List.mem_cons_of_mem _ hp) h)
            (Or.inr ⟨hmem', hbfar⟩)

/-- Python `min` by absolute distance returns the unique nearest entry. -/
theorem nearestPair_unique {amb k0 : ℤ} {f0 : ℚ} {l : List (ℤ × ℚ)}
    (hmem : (k0, f0) ∈ l)
    (hval : ∀ p ∈ l, p.1 = k0 → p.2 = f0)
    (hdist : ∀ p ∈ l, p.1 ≠ k0 → |k0 - amb| < |p.1 - amb|) :
    nearestPair amb l = some (k0, f0) := by
  cases l with
  | nil => simp at hmem
  | cons x rest =>
    unfold nearestPair
    simp only []
    congr 1
    by_cases hxk : x.1 = k0
    · have hx : x = (k0, f0) := by
        have := hval x (by simp) hxk
        exact Prod.ext hxk this
      subst hx
      exact foldl_nearest (fun p hp h => hval p (List.mem_cons_of_mem _ hp) h)
        (fun p hp h => hdist p (List.mem_cons_of_mem _ hp) h) (Or.inl rfl)
    · have hmem' : (k0, f0) ∈ rest := by
        rcases List.mem_cons.mp hmem with he | he
        · exfalso
          apply hxk
          rw [← he]
        · exact he
      exact foldl_nearest (fun p hp h => hval p (List.mem_cons_of_mem _ hp) h)
        (fun p hp h => hdist p (List.mem_cons_of_mem _ hp) h)
        (Or.inr ⟨hmem', hdist x (by simp) hxk⟩)


/-- CLAIM C2: for every nonempty temperature-derating table (with distinct
keys, as Python dict keys are) the factor used by
`apply_correction_factors` is the exact table value at the ambient
temperature when present; else, strictly between two neighbouring keys,
the linear interpolation of their factors; else (outside the table range)
the factor of the nearest defined key. -/
theorem temp_factor_resolution (tv : List (ℤ × ℚ)) (amb : ℤ)
    (hnd : (tv.map Prod.fst).Nodup) (hne : tv ≠ []) :
    (∀ f, (amb, f) ∈ tv → temp_factor_lookup tv amb = f)
    ∧ (∀ k1 f1 k2 f2, (k1, f1) ∈ tv → (k2, f2) ∈ tv → k1 < amb → amb < k2 →
        (∀ p ∈ tv, p.1 ≤ k1 ∨ k2 ≤ p.1) →
        temp_factor_lookup tv amb =
          f1 + (f2 - f1) * (((amb : ℚ) - (k1 : ℚ)) / ((k2 : ℚ) - (k1 : ℚ))))
    ∧ (∀ k0 f0, (k0, f0) ∈ tv → (∀ p ∈ tv, amb < p.1) → (∀ p ∈ tv, k0 ≤ p.1) →
        temp_factor_lookup tv amb = f0)
    ∧ (∀ k0 f0, (k0, f0) ∈ tv → (∀ p ∈ tv, p.1 < amb) → (∀ p ∈ tv, p.1 ≤ k0) →
        temp_factor_lookup tv amb = f0) := by
  have hempty : tv.isEmpty = false := by
    cases tv with
    | nil => exact absurd rfl hne
    | cons a l => rfl
  have hsort : List.Sorted (fun a b : ℤ × ℚ => a.1 ≤ b.1)
      (tv.insertionSort (fun a b => a.1 ≤ b.1)) :=
    List.sorted_insertionSort _ tv
  have hperm : List.Perm (tv.insertionSort (fun a b => a.1 ≤ b.1)) tv :=
    List.perm_insertionSort _ tv
  have hndav : ((tv.insertionSort (fun a b => a.1 ≤ b.1)).map Prod.fst).Nodup :=
    (hperm.map Prod.fst).nodup_iff.mpr hnd
  have hstrict := sorted_key_strict hsort hndav
  refine ⟨?_, ?_, ?_, ?_⟩
  · intro f hf
    unfold temp_factor_lookup
    rw [hempty, alookup_eq_some_of_mem hnd hf]
    simp
  · intro k1 f1 k2 f2 h1 h2 hk1 hk2 hnb
    have hnotmem : ∀ v : ℚ, (amb, v) ∉ tv := by
      intro v hv
      rcases hnb (amb, v) hv with h | h <;> omega
    have hint := interpScan_of_neighbors hstrict
      ((hperm.mem_iff).mpr h1) ((hperm.mem_iff).mpr h2) hk1 hk2
      (fun p hp => hnb p (hperm.subset hp))
    unfold temp_factor_lookup
    rw [hempty, alookup_eq_none_of_not_mem hnotmem]
    simp only []
    rw [hint]
    simp
  · intro k0 f0 hmem hgt hmin
    have hnotmem : ∀ v : ℚ, (amb, v) ∉ tv := by
      intro v hv
      have := hgt (amb, v) hv
      omega
    have hambk0 : amb < k0 := hgt (k0, f0) hmem
    have hnone := interpScan_none_of_all_gt
      (l := tv.insertionSort (fun a b => a.1 ≤ b.1))
      (fun p hp => hgt p (hperm.subset hp))
    have hnear := @nearestPair_unique amb k0 f0
      (tv.insertionSort (fun a b => a.1 ≤ b.1))
      ((hperm.mem_iff).mpr hmem)
      (fun p hp hpk => by
        have hptv : p ∈ tv := hperm.subset hp
        have : (k0, p.2) ∈ tv := by
          rw [← hpk]
          exact hptv
        exact key_val_unique hnd this hmem)
      (fun p hp hpk => by
        have hptv : p ∈ tv := hperm.subset hp
        have h1 : k0 ≤ p.1 := hmin p hptv
        have h2 : amb < p.1 := hgt p hptv
        have e1 : |k0 - amb| = k0 - amb := abs_of_nonneg (by omega)
        have e2 : |p.1 - amb| = p.1 - amb := abs_of_nonneg (by omega)
        rw [e1, e2]
        omega)
    unfold temp_factor_lookup
    rw [hempty, alookup_eq_none_of_not_mem hnotmem]
    simp only []
    rw [hnone]
    simp only []
    rw [hnear]
    simp
  · intro k0 f0 hmem hlt hmax
    have hnotmem : ∀ v : ℚ, (amb, v) ∉ tv := by
      intro v hv
      have := hlt (amb, v) hv
      omega
    have hambk0 : k0 < amb := hlt (k0, f0) hmem
    have hnone := interpScan_none_of_all_lt
      (l := tv.insertionSort (fun a b => a.1 ≤ b.1))
      (fun p hp => hlt p (hperm.subset hp))
    have hnear := @nearestPair_unique amb k0 f0
      (tv.insertionSort (fun a b => a.1 ≤ b.1))
      ((hperm.mem_iff).mpr hmem)
      (fun p hp hpk => by
        have hptv : p ∈ tv := hperm.subset hp
        have : (k0, p.2) ∈ tv := by
          rw [← hpk]
          exact hptv
        exact key_val_unique hnd this hmem)
      (fun p hp hpk => by
        have hptv : p ∈ tv := hperm.subset hp
        have h1 : p.1 ≤ k0 := hmax p hptv
        have h2 : p.1 < amb := hlt p hptv
        have e1 : |k0 - amb| = amb - k0 := by
          rw [abs_sub_comm]
          exact abs_of_nonneg (by omega)
        have e2 : |p.1 - amb| = amb - p.1 := by
          rw [abs_sub_comm]
          exact abs_of_nonneg (by omega)
        rw [e1, e2]
        omega)
    unfold temp_factor_lookup
    rw [hempty, alookup_eq_none_of_not_mem hnotmem]
    simp only []
    rw [hnone]
    simp only []
    rw [hnear]
    simp

/-- Witness for C2 on the table `{25: 1.04, 30: 1.0, 35: 0.96}`: exact hit
at 30, interpolation at 32, nearest at 50 and at 10. -/
theorem temp_factor_resolution_witness :
    (temp_factor_lookup [(25, 104/100), (30, 1), (35, 96/100)] 30 = 1)
    ∧ (temp_factor_lookup [(25, 104/100), (30, 1), (35, 96/100)] 32 =
        1 + (96/100 - 1) * (((32 : ℚ) - 30) / ((35 : ℚ) - 30)))
    ∧ (temp_factor_lookup [(25, 104/100), (30, 1), (35, 96/100)] 50 = 96/100)
    ∧ (temp_factor_lookup [(25, 104/100), (30, 1), (35, 96/100)] 10 = 104/100) := by
  have hnd : (([(25, 104/100), (30, 1), (35, 96/100)] :
      List (ℤ × ℚ)).map Prod.fst).Nodup := by
    decide
  refine ⟨?_, ?_, ?_, ?_⟩
  · exact (temp_factor_resolution _ 30 hnd (by simp)).1 1 (by norm_num)
  · exact (temp_factor_resolution _ 32 hnd (by simp)).2.1 30 1 35 (96/100)
      (by norm_num) (by norm_num) (by norm_num) (by norm_num)
      (by intro p hp; simp only [List.mem_cons, List.not_mem_nil, or_false] at hp; rcases hp with h | h | h <;> simp [h] <;> norm_num)
  · exact (temp_factor_resolution _ 50 hnd (by simp)).2.2.2 35 (96/100)
      (by norm_num)
      (by intro p hp; simp only [List.mem_cons, List.not_mem_nil, or_false] at hp; rcases hp with h | h | h <;> simp [h])
      (by intro p hp; simp only [List.mem_cons, List.not_mem_nil, or_false] at hp; rcases hp with h | h | h <;> simp [h])
  · exact (temp_factor_resolution _ 10 hnd (by simp)).2.2.1 25 (104/100)
      (by norm_num)
      (by intro p hp; simp only [List.mem_cons, List.not_mem_nil, or_false] at hp; rcases hp with h | h | h <;> simp [h])
      (by intro p hp; simp only [List.mem_cons, List.not_mem_nil, or_false] at hp; rcases hp with h | h | h <;> simp [h])


/-- A descending key-sort of a list whose unique maximal key is `n` (with
value `f`) starts with `(n, f)`. -/
theorem insertionSort_desc_head_max {l : List (ℤ × ℚ)} {n : ℤ} {f : ℚ}
    (hmem : (n, f) ∈ l) (hmax : ∀ p ∈ l, p.1 ≤ n)
    (hval : ∀ p ∈ l, p.1 = n → p.2 = f) :
    ∃ rest, l.insertionSort (fun a b => b.1 ≤ a.1) = (n, f) :: rest := by
  have hperm := List.perm_insertionSort (fun a b : ℤ × ℚ => b.1 ≤ a.1) l
  have hsort := List.sorted_insertionSort (fun a b : ℤ × ℚ => b.1 ≤ a.1) l
  cases hsl : l.insertionSort (fun a b => b.1 ≤ a.1) with
  | nil =>
    rw [hsl] at hperm
    rw [hperm.symm.eq_nil] at hmem
    simp at hmem
  | cons h t =>
    refine ⟨t, ?_⟩
    rw [hsl] at hperm hsort
    have hh_mem : h ∈ l := hperm.subset (by simp)
    have h1 : h.1 ≤ n := hmax h hh_mem
    have hnf_mem : (n, f) ∈ h :: t := hperm.mem_iff.mpr hmem
    have h2 : n ≤ h.1 := by
      rcases List.mem_cons.mp hnf_mem with he | he
      · rw [← he]
      · exact (List.pairwise_cons.mp hsort).1 _ he
    have hkey : h.1 = n := le_antisymm h1 h2
    have : h = (n, f) := Prod.ext hkey (hval h hh_mem hkey)
    rw [this]


/-- Membership view of the applicable-threshold candidates. -/
theorem mem_plusCandidates {count : ℤ} {tbl : GroupTable} {p : ℤ × ℚ}
    (hp : p ∈ plusCandidates count tbl) :
    (GKey.plus p.1, p.2) ∈ tbl ∧ p.1 ≤ count := by
  rcases List.mem_filterMap.mp hp with ⟨a, ha, hfa⟩
  obtain ⟨k, v⟩ := a
  cases k with
  | num m => simp at hfa
  | plus m =>
    by_cases hm : m ≤ count
    · simp only [if_pos hm] at hfa
      injection hfa with hfa
      rw [← hfa]
      exact ⟨ha, hm⟩
    · simp [if_neg hm] at hfa

/-- The applicable-threshold candidates contain every qualifying entry. -/
theorem plusCandidates_mem {count n : ℤ} {f : ℚ} {tbl : GroupTable}
    (h : (GKey.plus n, f) ∈ tbl) (hle : n ≤ count) :
    (n, f) ∈ plusCandidates count tbl :=
  List.mem_filterMap.mpr ⟨(GKey.plus n, f), h, by simp [hle]⟩

/-- No thresholds qualify when the count lies below all of them. -/
theorem plusCandidates_eq_nil {count : ℤ} {tbl : GroupTable}
    (h : ∀ m g, (GKey.plus m, g) ∈ tbl → count < m) :
    plusCandidates count tbl = [] := by
  apply List.filterMap_eq_nil_iff.mpr
  intro a ha
  obtain ⟨k, v⟩ := a
  cases k with
  | num m => rfl
  | plus m => simp [if_neg (not_le.mpr (h m v ha))]

/-- Membership view of the numeric candidates. -/
theorem mem_numCandidates {tbl : GroupTable} {p : ℤ × ℚ}
    (hp : p ∈ numCandidates tbl) : (GKey.num p.1, p.2) ∈ tbl := by
  rcases List.mem_filterMap.mp hp with ⟨a, ha, hfa⟩
  obtain ⟨k, v⟩ := a
  cases k with
  | num m =>
    injection hfa with hfa
    rw [← hfa]
    exact ha
  | plus m => simp at hfa

/-- The numeric candidates contain every numeric entry. -/
theorem numCandidates_mem {k : ℤ} {f : ℚ} {tbl : GroupTable}
    (h : (GKey.num k, f) ∈ tbl) : (k, f) ∈ numCandidates tbl :=
  List.mem_filterMap.mpr ⟨(GKey.num k, f), h, rfl⟩


/-- CLAIM C3: the grouping factor resolves its table as
`groupingDerating[method][layout].values`, else `[method].values`, else
the first sub-table carrying `values` (factor 1.0 when nothing resolves);
within a (distinct-key) table: exact count match first, else the highest
applicable `"N+"` threshold, else the numerically nearest count key. -/
theorem grouping_factor_resolution (norm : NormativaConfig) (count : ℤ)
    (method layout : String) :
    (alookup method norm.grouping_factors = none →
      get_grouping_factor_safe norm count method layout = 1)
    ∧ (∀ md, alookup method norm.grouping_factors = some md →
        (layout ≠ "" → ∀ tbl, alookup layout md.sublayouts = some (some tbl) →
          get_grouping_factor_safe norm count method layout =
            factor_from_group_table tbl count)
        ∧ ((alookup layout md.sublayouts = none ∨
            alookup layout md.sublayouts = some none ∨ layout = "") →
          (∀ tbl, md.values? = some tbl →
            get_grouping_factor_safe norm count method layout =
              factor_from_group_table tbl count)
          ∧ (md.values? = none →
            (∀ name tbl, md.sublayouts.find? (fun p => p.2.isSome) =
                some (name, some tbl) →
              get_grouping_factor_safe norm count method layout =
                factor_from_group_table tbl count)
            ∧ (md.sublayouts.find? (fun p => p.2.isSome) = none →
              get_grouping_factor_safe norm count method layout = 1))))
    ∧ (∀ tbl : GroupTable, (tbl.map Prod.fst).Nodup →
        (∀ f, (GKey.num count, f) ∈ tbl → factor_from_group_table tbl count = f)
        ∧ ((∀ f, (GKey.num count, f) ∉ tbl) →
          ∀ n f, (GKey.plus n, f) ∈ tbl → n ≤ count →
            (∀ m g, (GKey.plus m, g) ∈ tbl → m ≤ count → m ≤ n) →
            factor_from_group_table tbl count = f)
        ∧ ((∀ f, (GKey.num count, f) ∉ tbl) →
          (∀ m g, (GKey.plus m, g) ∈ tbl → count < m) →
          ∀ k f, (GKey.num k, f) ∈ tbl →
            (∀ j g, (GKey.num j, g) ∈ tbl → j ≠ k →
              |k - count| < |j - count|) →
            factor_from_group_table tbl count = f)) := by
  refine ⟨?_, ?_, ?_⟩
  · intro hm
    unfold get_grouping_factor_safe
    rw [hm]
  · intro md hm
    constructor
    · intro hlne tbl hlay
      unfold get_grouping_factor_safe
      rw [hm]
      simp only []
      unfold resolve_group_table
      rw [if_pos hlne, hlay]
    · intro hlay
      have hres : (if layout ≠ "" then alookup layout md.sublayouts else none) =
          none ∨ (if layout ≠ "" then alookup layout md.sublayouts else none) =
          some none := by
        rcases hlay with h | h | h
        · by_cases hl : layout ≠ ""
          · left
            rw [if_pos hl, h]
          · left
            rw [if_neg hl]
        · by_cases hl : layout ≠ ""
          · right
            rw [if_pos hl, h]
          · left
            rw [if_neg hl]
        · left
          rw [if_neg (by simp [h])]
      constructor
      · intro tbl hv
        unfold get_grouping_factor_safe
        rw [hm]
        simp only []
        unfold resolve_group_table
        rcases hres with h | h <;> rw [h] <;> simp only [] <;> rw [hv]
      · intro hv
        constructor
        · intro name tbl hfind
          unfold get_grouping_factor_safe
          rw [hm]
          simp only []
          unfold resolve_group_table
          rcases hres with h | h <;> rw [h] <;> simp only [] <;>
            rw [hv, hfind] <;> rfl
        · intro hfind
          unfold get_grouping_factor_safe
          rw [hm]
          simp only []
          unfold resolve_group_table
          rcases hres with h | h <;> rw [h] <;> simp only [] <;>
            rw [hv, hfind] <;> rfl
  · intro tbl hnd
    refine ⟨?_, ?_, ?_⟩
    · intro f hf
      have hempty : tbl.isEmpty = false := by
        cases tbl with
        | nil => simp at hf
        | cons a l => rfl
      unfold factor_from_group_table
      rw [hempty, alookup_eq_some_of_mem hnd hf]
      simp
    · intro hno n f hf hle hsup
      have hempty : tbl.isEmpty = false := by
        cases tbl with
        | nil => simp at hf
        | cons a l => rfl
      have hnone : alookup (GKey.num count) tbl = none :=
        alookup_eq_none_of_not_mem (fun v hv => hno v hv)
      have hmemc : (n, f) ∈ plusCandidates count tbl := plusCandidates_mem hf hle
      have hmax : ∀ p ∈ plusCandidates count tbl, p.1 ≤ n := by
        intro p hp
        have := mem_plusCandidates hp
        exact hsup p.1 p.2 this.1 this.2
      have hval : ∀ p ∈ plusCandidates count tbl, p.1 = n → p.2 = f := by
        intro p hp hpk
        have h1 := (mem_plusCandidates hp).1
        rw [hpk] at h1
        exact key_val_unique hnd h1 hf
      rcases insertionSort_desc_head_max hmemc hmax hval with ⟨rest, hsorted⟩
      unfold factor_from_group_table
      rw [hempty, hnone]
      simp only []
      rw [hsorted]
      simp
    · intro hno hplus k f hf hnear
      have hempty : tbl.isEmpty = false := by
        cases tbl with
        | nil => simp at hf
        | cons a l => rfl
      have hnone : alookup (GKey.num count) tbl = none :=
        alookup_eq_none_of_not_mem (fun v hv => hno v hv)
      have happ : plusCandidates count tbl = [] := plusCandidates_eq_nil hplus
      have hnear2 := @nearestPair_unique count k f (numCandidates tbl)
        (numCandidates_mem hf)
        (fun p hp hpk => by
          have h1 := mem_numCandidates hp
          rw [hpk] at h1
          exact key_val_unique hnd h1 hf)
        (fun p hp hpk => hnear p.1 p.2 (mem_numCandidates hp) hpk)
      unfold factor_from_group_table
      rw [hempty, hnone]
      simp only []
      rw [happ]
      simp only [List.insertionSort]
      rw [hnear2]
      simp


/-- Witness for C3 on a method with a direct table and a layout
sub-table: the layout table wins when present (exact hit at 2 gives
0.85); an unknown layout falls back to the direct table, where count 8
hits the `6+` threshold (0.7); count 3 in the layout table uses the
nearest numeric key 2; an unknown method gives factor 1. -/
theorem grouping_factor_resolution_witness :
    (get_grouping_factor_safe normC3 2 "buried" "single_layer" = 85/100)
    ∧ (get_grouping_factor_safe normC3 8 "buried" "weird" = 7/10)
    ∧ (get_grouping_factor_safe normC3 3 "buried" "single_layer" = 85/100)
    ∧ (get_grouping_factor_safe normC3 3 "conduit" "single_layer" = 1) := by
  have hm : alookup "buried" normC3.grouping_factors =
      some { values? := some directTable
             sublayouts := [("single_layer", some layoutTable),
                            ("multilayer", none)] } := by
    simp [normC3, alookup]
  have hlay : alookup "single_layer"
      ([("single_layer", some layoutTable), ("multilayer", none)] :
        List (String × Option GroupTable)) = some (some layoutTable) := by
    simp [alookup]
  have hlayn : alookup "weird"
      ([("single_layer", some layoutTable), ("multilayer", none)] :
        List (String × Option GroupTable)) = none := by
    simp [alookup]
  have hndL : (layoutTable.map Prod.fst).Nodup := by
    simp [layoutTable]
  have hndD : (directTable.map Prod.fst).Nodup := by
    simp [directTable]
  refine ⟨?_, ?_, ?_, ?_⟩
  · have h1 := ((grouping_factor_resolution normC3 2 "buried"
      "single_layer").2.1 _ hm).1 (by simp) layoutTable hlay
    have h2 := ((grouping_factor_resolution normC3 2 "buried"
      "single_layer").2.2 layoutTable hndL).1 (85/100)
      (by norm_num [layoutTable])
    rw [h1, h2]
  · have h1 := (((grouping_factor_resolution normC3 8 "buried"
      "weird").2.1 _ hm).2 (Or.inl hlayn)).1 directTable rfl
    have h2 := ((grouping_factor_resolution normC3 8 "buried"
      "weird").2.2 directTable hndD).2.1
      (by intro g hg
          simp only [directTable, List.mem_cons, List.not_mem_nil, or_false,
            Prod.mk.injEq] at hg
          rcases hg with h | h | h
          · exact GKey.noConfusion (h.1 : GKey.num 8 = GKey.num 1)
              (fun he => absurd he (by decide))
          · exact GKey.noConfusion (h.1 : GKey.num 8 = GKey.num 2)
              (fun he => absurd he (by decide))
          · exact GKey.noConfusion h.1)
      6 (7/10) (by norm_num [directTable]) (by norm_num)
      (by intro m g hg hle
          simp only [directTable, List.mem_cons, List.not_mem_nil, or_false,
            Prod.mk.injEq] at hg
          rcases hg with h | h | h
          · exact GKey.noConfusion h.1
          · exact GKey.noConfusion h.1
          · injection h.1 with hm2
            omega)
    rw [h1, h2]
  · have h1 := ((grouping_factor_resolution normC3 3 "buried"
      "single_layer").2.1 _ hm).1 (by simp) layoutTable hlay
    have h2 := ((grouping_factor_resolution normC3 3 "buried"
      "single_layer").2.2 layoutTable hndL).2.2
      (by intro g hg
          simp only [layoutTable, List.mem_cons, List.not_mem_nil, or_false,
            Prod.mk.injEq] at hg
          rcases hg with h | h | h
          · exact GKey.noConfusion (h.1 : GKey.num 3 = GKey.num 1)
              (fun he => absurd he (by decide))
          · exact GKey.noConfusion (h.1 : GKey.num 3 = GKey.num 2)
              (fun he => absurd he (by decide))
          · exact GKey.noConfusion h.1)
      (by intro m g hg
          simp only [layoutTable, List.mem_cons, List.not_mem_nil, or_false,
            Prod.mk.injEq] at hg
          rcases hg with h | h | h
          · exact absurd h.1 (fun hc => GKey.noConfusion hc)
          · exact absurd h.1 (fun hc => GKey.noConfusion hc)
          · injection h.1 with hm2
            omega)
      2 (85/100) (by norm_num [layoutTable])
      (by intro j g hg hj
          simp only [layoutTable, List.mem_cons, List.not_mem_nil, or_false,
            Prod.mk.injEq] at hg
          rcases hg with h | h | h
          · injection h.1 with hj2
            rw [hj2]
            decide
          · injection h.1 with hj2
            exact absurd hj2 hj
          · exact absurd h.1 (fun hc => GKey.noConfusion hc))
    rw [h1, h2]
  · exact (grouping_factor_resolution normC3 3 "conduit" "single_layer").1
      (by simp [normC3, alookup])


/-- Digits are fixed points of Python upper-casing. -/
theorem toUpper_of_isDigit {c : Char} (h : c.isDigit = true) : c.toUpper = c := by
  simp [Char.isDigit] at h
  have h2 : c.toNat ≤ 57 := h.2
  unfold Char.toUpper
  rw [if_neg]
  intro hc
  omega

/-- Digits are fixed points of Python lower-casing. -/
theorem toLower_of_isDigit {c : Char} (h : c.isDigit = true) : c.toLower = c := by
  simp [Char.isDigit] at h
  have h2 : c.toNat ≤ 57 := h.2
  unfold Char.toLower
  rw [if_neg]
  intro hc
  omega

/-- Digits are not whitespace. -/
theorem isPySpace_of_isDigit {c : Char} (h : c.isDigit = true) :
    isPySpace c = false := by
  have h1 : 48 ≤ c.toNat := by
    simp [Char.isDigit] at h
    exact h.1
  unfold isPySpace
  simp only [Bool.or_eq_false_iff, decide_eq_false_iff_not]
  refine ⟨⟨⟨⟨⟨?_, ?_⟩, ?_⟩, ?_⟩, ?_⟩, ?_⟩ <;>
    (intro he; rw [he] at h1; exact absurd h1 (by decide))

/-- Upper-casing distributes over append. -/
theorem upperStr_append (a b : List Char) :
    upperStr (a ++ b) = upperStr a ++ upperStr b :=
  List.map_append _ a b

/-- Lower-casing distributes over append. -/
theorem lowerStr_append (a b : List Char) :
    lowerStr (a ++ b) = lowerStr a ++ lowerStr b :=
  List.map_append _ a b

/-- Upper-casing fixes digit strings. -/
theorem upperStr_of_digits {l : List Char} (h : ∀ c ∈ l, c.isDigit = true) :
    upperStr l = l := by
  unfold upperStr
  rw [List.map_congr_left (fun c hc => toUpper_of_isDigit (h c hc))]
  exact List.map_id l

/-- Lower-casing fixes digit strings. -/
theorem lowerStr_of_digits {l : List Char} (h : ∀ c ∈ l, c.isDigit = true) :
    lowerStr l = l := by
  unfold lowerStr
  rw [List.map_congr_left (fun c hc => toLower_of_isDigit (h c hc))]
  exact List.map_id l

/-- Dropping-while leaves a list with no matching characters intact. -/
theorem dropWhile_eq_self_of_none {p : Char → Bool} :
    ∀ {l : List Char}, (∀ c ∈ l, p c = false) → l.dropWhile p = l := by
  intro l
  cases l with
  | nil => intro _; rfl
  | cons c rest =>
    intro h
    rw [List.dropWhile_cons]
    simp [h c (by simp)]

/-- Stripping leaves a whitespace-free string intact. -/
theorem stripStr_eq_self {l : List Char} (h : ∀ c ∈ l, isPySpace c = false) :
    stripStr l = l := by
  unfold stripStr
  rw [dropWhile_eq_self_of_none h,
    dropWhile_eq_self_of_none (fun c hc => h c (List.mem_reverse.mp hc)),
    List.reverse_reverse]


/-- Replacing consumes a leading occurrence of the pattern. -/
theorem replaceDrop_append (pat rest : List Char) (hne : pat ≠ []) :
    replaceDrop pat (pat ++ rest) = replaceDrop pat rest := by
  cases pat with
  | nil => contradiction
  | cons p ps =>
    rw [List.cons_append, replaceDrop, if_pos]
    · rw [← List.cons_append]
      have hlen : (p :: ps ++ rest).drop (p :: ps).length = rest :=
        List.drop_left (p :: ps) rest
      rw [hlen]
    · refine ⟨by simp, ?_⟩
      rw [← List.cons_append]
      exact List.isPrefixOf_iff_prefix.mpr ⟨rest, rfl⟩

/-- Replacing a pattern with a non-digit head leaves a digit string
intact. -/
theorem replaceDrop_of_digits {p0 : Char} {ps : List Char}
    (hp : p0.isDigit = false) :
    ∀ {l : List Char}, (∀ c ∈ l, c.isDigit = true) →
      replaceDrop (p0 :: ps) l = l := by
  intro l
  induction l with
  | nil => intro _; rw [replaceDrop]
  | cons c rest ih =>
    intro h
    rw [replaceDrop, if_neg]
    · rw [ih (fun x hx => h x (List.mem_cons_of_mem _ hx))]
    · intro hc
      rcases List.isPrefixOf_iff_prefix.mp hc.2 with ⟨t, ht⟩
      have : p0 = c := by
        have := congrArg (fun l => l.head?) ht
        simpa using this
      rw [this] at hp
      rw [h c (by simp)] at hp
      exact absurd hp (by simp)


/-- COUNTEREXAMPLE to C8: identifiers that do not match the prefix
convention are zero-padded as-is and joined normally — they do not map to
the `"UNKNOWN"` bucket (which arises only when normalization raises). -/
theorem normalize_non_matching_not_unknown :
    build_mapping_circuit_id "BOX-3".data "7".data = "cn1-BOX-3-inv7".data
    ∧ normalize_circuit_id_from_cn1_table "BOX-3".data "7".data =
        "cn1-BOX-3-inv7".data
    ∧ "cn1-BOX-3-inv7".data ≠ "UNKNOWN".data := by
  refine ⟨by decide, by decide, by decide⟩

/-- Helper for C8: the characters of `"CN1-" ++ digits` (and of the other
prefix-plus-digits strings) are not whitespace. -/
theorem no_space_pre_digits {pre ds : List Char}
    (hpre : ∀ c ∈ pre, isPySpace c = false)
    (hds : ∀ c ∈ ds, c.isDigit = true) :
    ∀ c ∈ pre ++ ds, isPySpace c = false := by
  intro c hc
  rcases List.mem_append.mp hc with h | h
  · exact hpre c h
  · exact isPySpace_of_isDigit (hds c h)


/-- CLAIM C8 (amended): for identifiers following the prefix convention
with a numeric remainder, both normalizations agree and produce
`cn1-<zero-padded box digits>-inv<zero-stripped inverter digits>`;
identifiers that do not match the prefix convention are zero-padded as-is
and joined (not mapped to `"UNKNOWN"`, which arises only from a raised
exception inside normalization). -/
theorem normalize_circuit_id_agreement
    (boxPre invPre ds es : List Char)
    (hbu : upperStr boxPre = "CN1-".data) (hbl : lowerStr boxPre = "cn1-".data)
    (hiu : upperStr invPre = "INV-".data)
    (hds : ∀ c ∈ ds, c.isDigit = true) (hes : ∀ c ∈ es, c.isDigit = true) :
    (build_mapping_circuit_id (boxPre ++ ds) (invPre ++ es) =
      "cn1-".data ++ zfill 2 ds ++ "-inv".data ++ lstripZerosOr0 es)
    ∧ (normalize_circuit_id_from_cn1_table (boxPre ++ ds) (invPre ++ es) =
      "cn1-".data ++ zfill 2 ds ++ "-inv".data ++ lstripZerosOr0 es)
    ∧ (∀ box inv : List Char,
        ("CN1-".data).isPrefixOf (stripStr (upperStr box)) = false →
        ("cn1-".data).isPrefixOf (stripStr (lowerStr box)) = false →
        ("INV-".data).isPrefixOf (stripStr (upperStr inv)) = false →
        build_mapping_circuit_id box inv =
            "cn1-".data ++ zfill 2 box ++ "-inv".data ++ lstripZerosOr0 inv
        ∧ normalize_circuit_id_from_cn1_table box inv =
            "cn1-".data ++ zfill 2 box ++ "-inv".data ++ lstripZerosOr0 inv) := by
  have hboxraw : stripStr (upperStr (boxPre ++ ds)) = "CN1-".data ++ ds := by
    rw [upperStr_append, hbu, upperStr_of_digits hds]
    exact stripStr_eq_self (no_space_pre_digits (by decide) hds)
  have hinvraw : stripStr (upperStr (invPre ++ es)) = "INV-".data ++ es := by
    rw [upperStr_append, hiu, upperStr_of_digits hes]
    exact stripStr_eq_self (no_space_pre_digits (by decide) hes)
  have hboxlow : stripStr (lowerStr (boxPre ++ ds)) = "cn1-".data ++ ds := by
    rw [lowerStr_append, hbl, lowerStr_of_digits hds]
    exact stripStr_eq_self (no_space_pre_digits (by decide) hds)
  have hrdC : replaceDrop "CN1-".data ("CN1-".data ++ ds) = ds := by
    rw [replaceDrop_append _ _ (by decide)]
    exact @replaceDrop_of_digits 'C' ['N', '1', '-'] (by decide) ds hds
  have hrdc : replaceDrop "cn1-".data ("cn1-".data ++ ds) = ds := by
    rw [replaceDrop_append _ _ (by decide)]
    exact @replaceDrop_of_digits 'c' ['n', '1', '-'] (by decide) ds hds
  have hrdI : replaceDrop "INV-".data ("INV-".data ++ es) = es := by
    rw [replaceDrop_append _ _ (by decide)]
    exact @replaceDrop_of_digits 'I' ['N', 'V', '-'] (by decide) es hes
  refine ⟨?_, ?_, ?_⟩
  · unfold build_mapping_circuit_id
    simp only []
    rw [hboxraw, hinvraw]
    rw [if_pos (List.isPrefixOf_iff_prefix.mpr ⟨ds, rfl⟩),
      if_pos (List.isPrefixOf_iff_prefix.mpr ⟨es, rfl⟩), hrdC, hrdI]
  · unfold normalize_circuit_id_from_cn1_table
    simp only []
    rw [hboxlow, hinvraw]
    rw [if_pos (List.isPrefixOf_iff_prefix.mpr ⟨ds, rfl⟩),
      if_pos (List.isPrefixOf_iff_prefix.mpr ⟨es, rfl⟩), hrdc, hrdI]
  · intro box inv h1 h2 h3
    constructor
    · unfold build_mapping_circuit_id
      simp only []
      rw [if_neg (by simp [h1]), if_neg (by simp [h3])]
    · unfold normalize_circuit_id_from_cn1_table
      simp only []
      rw [if_neg (by simp [h2]), if_neg (by simp [h3])]

/-- Witness for the amended C8 at `Cn1-07` / `INV-02`: both sides produce
`cn1-07-inv2`. -/
theorem normalize_circuit_id_agreement_witness :
    (build_mapping_circuit_id ("Cn1-".data ++ ['0', '7'])
        ("INV-".data ++ ['0', '2']) =
      "cn1-".data ++ zfill 2 ['0', '7'] ++ "-inv".data ++
        lstripZerosOr0 ['0', '2'])
    ∧ (normalize_circuit_id_from_cn1_table ("Cn1-".data ++ ['0', '7'])
        ("INV-".data ++ ['0', '2']) =
      "cn1-".data ++ zfill 2 ['0', '7'] ++ "-inv".data ++
        lstripZerosOr0 ['0', '2']) :=
  ⟨(normalize_circuit_id_agreement "Cn1-".data "INV-".data ['0', '7']
      ['0', '2'] (by decide) (by decide) (by decide) (by decide) (by decide)).1,
   (normalize_circuit_id_agreement "Cn1-".data "INV-".data ['0', '7']
      ['0', '2'] (by decide) (by decide) (by decide) (by decide) (by decide)).2.1⟩

end Calcapp
